/-
Verification of the gridctl protocol bridge / workflow executor against its
natural-language specification.

The Go sources are shallowly embedded as executable Lean definitions:

* `pkg/mcp/expand.go`            → `expandEnvVars` and its scanner;
* `internal/api/registry.go`     → `handleSkillFilePut` (the PUT branch of
                                    `handleRegistrySkillFiles`);
* `pkg/registry/executor.go`     → the workflow executor (`Execute`,
                                    `executeStepFull`, `executeStepWithRetry`,
                                    `resolveErrorPolicy`, output assembly);
* the pipe-style stdio client, the SSE message handler and the agent ACL are
  not part of the source tree (only their tests are); they are modelled from
  the specification (and, where the in-tree tests pin behaviour, from those
  tests), as marked on each definition.

Go maps are represented as association lists, `context` cancellation as an
explicit schedule, the dynamic `any` payloads (which the embedded code never
inspects) as `String`, and external collaborators (tool caller, template
resolver, condition evaluator, duration parser) as function-valued fields of
an environment record.  Recursions that Go bounds by data invariants are
bounded here by an explicit fuel that provably suffices, keeping every
definition computable.
-/
import Mathlib

namespace Gridctl

/-! ## MCP core data (pkg/mcp): content parts and tool-call results -/

/-- One content item of an MCP tool result (`mcp.Content`): a type tag and a
text payload.  Non-text parts carry an empty `text`. -/
structure Content where
  type : String
  text : String
  deriving Repr, DecidableEq

/-- `mcp.NewTextContent`: a content item of type `text`. -/
def NewTextContent (t : String) : Content := ⟨"text", t⟩

/-- `mcp.ToolCallResult`: content list plus the tool-reported error flag. -/
structure ToolCallResult where
  content : List Content
  isError : Bool
  deriving Repr, DecidableEq

/-- `extractText` (executor.go): joins the non-empty `Text` fields of all
content items with a newline; `nil` or empty results give `""`.  The Go
receiver is a nilable pointer, embedded as `Option`. -/
def extractText (result : Option ToolCallResult) : String :=
  match result with
  | none => ""
  | some r =>
    if r.content = [] then ""
    else String.intercalate "\n" ((r.content.filter (fun c => c.text ≠ "")).map (·.text))

/-! ## Environment-variable expansion (pkg/mcp/expand.go)

`expandEnvVars` applies the regex
`\$\x7b([a-zA-Z_][a-zA-Z0-9_]*)(?::([+-])([^\x7d]*))?\x7d` with a
replacement function.  The embedding scans the character list left to right;
at each position it attempts the (deterministic) match the regex would find
there, replaces it and resumes after the match, otherwise moves one
character on.  The process environment is a parameter `env`
(`os.LookupEnv`). -/

def isAsciiLetter (c : Char) : Bool :=
  ('a' ≤ c && c ≤ 'z') || ('A' ≤ c && c ≤ 'Z')

/-- First character of a variable name: `[a-zA-Z_]`. -/
def isNameStart (c : Char) : Bool := isAsciiLetter c || c = '_'

/-- Subsequent characters of a variable name: `[a-zA-Z0-9_]`. -/
def isNameChar (c : Char) : Bool := isNameStart c || ('0' ≤ c && c ≤ '9')

/-- Greedily consume `[a-zA-Z0-9_]*`. -/
def takeName : List Char → List Char × List Char
  | [] => ([], [])
  | c :: cs =>
    if isNameChar c then
      let (n, r) := takeName cs
      (c :: n, r)
    else ([], c :: cs)

/-- Consume `[^\x7d]*` followed by the closing brace (the brace is consumed,
not returned).  `none` when no closing brace exists. -/
def takeOperand : List Char → Option (List Char × List Char)
  | [] => none
  | c :: cs =>
    if c = '}' then some ([], cs)
    else
      match takeOperand cs with
      | some (o, r) => some (c :: o, r)
      | none => none

/-- The match the regex engine finds anchored at the current position, if
any: variable name, optional `(operator, operand)`, and the remainder after
the match.  (The dollar sign, the braces, the name-start test, the `:` and
the `+`/`-` operator correspond one-to-one to the regex's pieces.) -/
def tryMatch : List Char → Option (String × Option (Char × String) × List Char)
  | a :: b :: c :: cs =>
    if a = '$' ∧ b = '{' ∧ isNameStart c = true then
      match takeName cs with
      | (n, r) =>
        match r with
        | k :: r1 =>
          if k = '}' then some (String.mk (c :: n), none, r1)
          else if k = ':' then
            match r1 with
            | op :: r2 =>
              if op = '+' || op = '-' then
                match takeOperand r2 with
                | some (operand, rest) =>
                  some (String.mk (c :: n), some (op, String.mk operand), rest)
                | none => none
              else none
            | [] => none
          else none
        | [] => none
    else none
  | _ => none

/-- The replacement function of `expandEnvVars` (the `ReplaceAllFunc`
callback): simple reference, `:-` default, `:+` replacement.  `tryMatch`
only produces operators `+` and `-`, so the Go fall-through branch (return
the match unchanged) is unreachable here. -/
def expandMatch (env : String → Option String) (name : String)
    (opnd : Option (Char × String)) : String :=
  let value := (env name).getD ""
  match opnd with
  | none => value
  | some (op, operand) =>
    if op = '-' then (if value = "" then operand else value)
    else if op = '+' then (if (env name).isSome && value ≠ "" then operand else "")
    else value

/-- Left-to-right scan with non-overlapping replacement.  `fuel` bounds the
recursion; any `fuel ≥ length` gives the untruncated scan
(`expandScan_fuel_irrelevant`). -/
def expandScan (env : String → Option String) : Nat → List Char → List Char
  | 0, l => l
  | _ + 1, [] => []
  | fuel + 1, c :: cs =>
    match tryMatch (c :: cs) with
    | some (name, opnd, rest) => (expandMatch env name opnd).data ++ expandScan env fuel rest
    | none => c :: expandScan env fuel cs

/-- `expandEnvVars` (expand.go): POSIX-style environment expansion over the
whole document. -/
def expandEnvVars (env : String → Option String) (s : String) : String :=
  String.mk (expandScan env s.data.length s.data)

/-! ## Skill side-file PUT (internal/api/registry.go, handleRegistrySkillFiles)

The PUT branch reads `io.ReadAll(io.LimitReader(r.Body, 1<<20))` — the body
truncated to its first `2^20` bytes, never an error for oversize — then
stores the bytes and answers `204 No Content`.  The store lookup
(`GetSkill`) and the write (`WriteFile`) are externals, embedded as booleans
saying whether they succeed; bytes are `Nat`s below 256. -/

/-- Outcome of one PUT on `/api/registry/skills/:name/files/:path`: the HTTP
status and the bytes handed to `Store().WriteFile` (none when no write
happened). -/
structure FilePutOutcome where
  status : Nat
  written : Option (List Nat)
  deriving Repr, DecidableEq

/-- The `http.MethodPut` branch of `handleRegistrySkillFiles`, including the
skill-existence guard that precedes the method switch. -/
def handleSkillFilePut (skillExists : Bool) (body : List Nat) (writeOk : Bool) :
    FilePutOutcome :=
  if ¬skillExists then ⟨404, none⟩
  else
    let data := body.take (2 ^ 20)
    if writeOk then ⟨204, some data⟩ else ⟨500, none⟩

/-! ## Workflow executor data model (pkg/registry/executor.go)

`any`-typed argument and input values flow through the executor without ever
being inspected, so they are embedded as `String`. -/

/-- Opaque stand-in for Go's dynamic `any` payloads. -/
abbrev AnyValue := String

/-- `RetryPolicy` of a step: `retry: \x7bmax_attempts, backoff\x7d`. -/
structure RetryPolicy where
  maxAttempts : Int
  backoff : String
  deriving Repr, DecidableEq

/-- `WorkflowStep` (executor.go / skill document). -/
structure WorkflowStep where
  id : String
  tool : String
  args : List (String × AnyValue)
  dependsOn : List String
  condition : String
  onError : String
  timeout : String
  retry : Option RetryPolicy
  deriving Repr, DecidableEq

/-- A declared skill input (`SkillInput`): type/description/required/default/enum. -/
structure SkillInput where
  type : String
  description : String
  required : Bool
  default : Option AnyValue
  enum : List String
  deriving Repr, DecidableEq

/-- `WorkflowOutput`: output stage configuration (`Include` keeps the Go
field name; lowercase `include` is a Lean keyword). -/
structure WorkflowOutput where
  format : String
  Include : List String
  template : String
  deriving Repr, DecidableEq

/-- `AgentSkill` restricted to the fields the executor reads. -/
structure AgentSkill where
  name : String
  description : String
  inputs : List (String × SkillInput)
  workflow : List WorkflowStep
  output : Option WorkflowOutput
  deriving Repr, DecidableEq

/-- `StepResult` — the per-step template-context record: result text and
error flag (the lazy `json` view lives in the template resolver, an
external here). -/
structure StepResult where
  result : String
  isError : Bool
  deriving Repr, DecidableEq

/-- Modelled from the spec: "Step result — \x7btext, is_error, json?\x7d"; the
constructor stores the extracted text and the flag (its source file is not
in the tree). -/
def NewStepResult (text : String) (isError : Bool) : StepResult := ⟨text, isError⟩

/-- `TemplateContext`: immutable snapshot of inputs and prior step results. -/
structure TemplateContext where
  inputs : List (String × AnyValue)
  steps : List (String × StepResult)
  deriving Repr, DecidableEq

/-- `StepExecutionResult` without the wall-clock fields (`StartedAt`,
`DurationMs`), which have no observable content in the embedding. -/
structure StepExecutionResult where
  id : String
  tool : String
  status : String
  error : String
  attempts : Nat
  skipReason : String
  level : Nat
  deriving Repr, DecidableEq

/-- External collaborators of the executor, embedded as deterministic
functions: condition evaluation and template resolution (their sources are
not in the tree — the executor only sees their `(value, error)` results),
the catalog's `CallTool` (`Except.error` = transport error; the `Option`
keeps Go's nilable result pointer), `time.ParseDuration` (`none` = parse
error), and the output-template resolver. -/
structure ExecEnv where
  evalCondition : String → TemplateContext → Except String Bool
  resolveArgs : List (String × AnyValue) → TemplateContext →
    Except String (List (String × AnyValue))
  callTool : String → List (String × AnyValue) → Except String (Option ToolCallResult)
  parseDuration : String → Option Nat
  resolveTemplate : String → TemplateContext → Except String String

/-! ### Association-list helpers standing in for Go maps -/

/-- Go map read `m[k]`. -/
def alistGet {α : Type} (m : List (String × α)) (k : String) : Option α :=
  match m with
  | [] => none
  | (k', v) :: rest => if k' = k then some v else alistGet rest k

/-- Go map write `m[k] = v` (overwrites in place, appends when absent; key
set equals Go's). -/
def alistSet {α : Type} (m : List (String × α)) (k : String) (v : α) :
    List (String × α) :=
  match m with
  | [] => [(k, v)]
  | (k', v') :: rest => if k' = k then (k, v) :: rest else (k', v') :: alistSet rest k v

/-! ### Single-step execution and retry (executor.go lines 1093–1174) -/

/-- `executeStep`: timeout-literal validation, template resolution of the
arguments, then one `CallTool` round trip.  The embedding carries no clock,
so the per-step child deadline never fires (all claims below are about
non-cancelled executions except where `executeStepWithRetry`'s explicit
cancellation schedule is used). -/
def executeStep (env : ExecEnv) (step : WorkflowStep) (tmplCtx : TemplateContext) :
    Except String (Option ToolCallResult) :=
  if step.timeout ≠ "" ∧ env.parseDuration step.timeout = none then
    .error ("step \"" ++ step.id ++ "\": invalid timeout \"" ++ step.timeout ++ "\"")
  else
    match env.resolveArgs step.args tmplCtx with
    | .error e => .error ("template resolution: " ++ e)
    | .ok resolvedArgs => env.callTool step.tool resolvedArgs

/-- `maxAttempts` after the normalisation at the top of
`executeStepWithRetry`: 1 without a retry policy, and at least 1 even when
`max_attempts < 1`. -/
def retryMaxAttempts (step : WorkflowStep) : Nat :=
  match step.retry with
  | none => 1
  | some r => if r.maxAttempts < 1 then 1 else r.maxAttempts.toNat

/-- Backoff in nanoseconds: parsed `retry.backoff` when non-empty and
parseable, otherwise the 1s default (`time.Second`). -/
def retryBackoff (env : ExecEnv) (step : WorkflowStep) : Nat :=
  match step.retry with
  | none => 1000000000
  | some r =>
    if r.backoff ≠ "" then
      match env.parseDuration r.backoff with
      | some d => d
      | none => 1000000000
    else 1000000000

/-- The retry loop's success test: `err == nil && (result == nil || !result.IsError)`
(the error case is handled by the surrounding match). -/
def retrySuccess (r : Option ToolCallResult) : Bool :=
  match r with
  | none => true
  | some res => !res.isError

/-- Result of `executeStepWithRetry` plus its observable trace: how many
times `executeStep` was invoked and the completed backoff sleeps (in
nanoseconds). -/
structure RetryOutcome where
  result : Option ToolCallResult
  attempts : Nat
  error : Option String
  invoked : Nat
  sleeps : List Nat
  deriving Repr, DecidableEq

/-- The `for attempt := 1; attempt <= maxAttempts` loop of
`executeStepWithRetry`.  `exec n` is the outcome of the n-th `executeStep`
invocation; `cancelled n` says whether the caller's context is done during
the backoff select that follows attempt `n`.  `fuel` counts the remaining
loop iterations, so the `fuel = 0` case is exactly the fall-through after
the last attempt. -/
def retryAux (exec : Nat → Except String (Option ToolCallResult)) (cancelled : Nat → Bool)
    (ctxErr : String) (stepID : String) (maxAttempts backoff : Nat) :
    Nat → Nat → Option String → Nat → List Nat → RetryOutcome
  | 0, _, lastErr, invoked, sleeps =>
    { result := none, attempts := maxAttempts,
      error := some ("step \"" ++ stepID ++ "\" failed after " ++ toString maxAttempts ++
        " attempts: " ++ lastErr.getD "unknown error"),
      invoked := invoked, sleeps := sleeps }
  | fuel + 1, attempt, _, invoked, sleeps =>
    match exec attempt with
    | .ok r =>
      if retrySuccess r then
        { result := r, attempts := attempt, error := none,
          invoked := invoked + 1, sleeps := sleeps }
      else
        -- tool-reported error: lastErr := "step returned error: <extracted text>"
        let le := "step returned error: " ++ extractText r
        if attempt < maxAttempts then
          if cancelled attempt then
            { result := none, attempts := attempt, error := some ctxErr,
              invoked := invoked + 1, sleeps := sleeps }
          else
            retryAux exec cancelled ctxErr stepID maxAttempts backoff fuel (attempt + 1)
              (some le) (invoked + 1) (sleeps ++ [backoff])
        else
          retryAux exec cancelled ctxErr stepID maxAttempts backoff fuel (attempt + 1)
            (some le) (invoked + 1) sleeps
    | .error e =>
      if attempt < maxAttempts then
        if cancelled attempt then
          { result := none, attempts := attempt, error := some ctxErr,
            invoked := invoked + 1, sleeps := sleeps }
        else
          retryAux exec cancelled ctxErr stepID maxAttempts backoff fuel (attempt + 1)
            (some e) (invoked + 1) (sleeps ++ [backoff])
      else
        retryAux exec cancelled ctxErr stepID maxAttempts backoff fuel (attempt + 1)
          (some e) (invoked + 1) sleeps

/-- `executeStepWithRetry`, generic in the per-attempt outcome and the
cancellation schedule. -/
def executeStepWithRetry (env : ExecEnv) (step : WorkflowStep)
    (exec : Nat → Except String (Option ToolCallResult)) (cancelled : Nat → Bool)
    (ctxErr : String) : RetryOutcome :=
  retryAux exec cancelled ctxErr step.id (retryMaxAttempts step) (retryBackoff env step)
    (retryMaxAttempts step) 1 none 0 []

/-! ### Error policy and full step execution (executor.go lines 1016–1198) -/

/-- `resolveErrorPolicy`: `(policy, shouldHalt)`; empty `on_error` defaults
to `fail`, anything but `skip`/`continue` halts. -/
def resolveErrorPolicy (step : WorkflowStep) : String × Bool :=
  let policy := if step.onError = "" then "fail" else step.onError
  if policy = "skip" then ("skip", false)
  else if policy = "continue" then ("continue", false)
  else ("", true)

/-- The quadruple returned by `executeStepFull`: execution record, template
step-result, policy tag (`"skip"`, `"continue"` or `""`), halt flag. -/
structure StepFullOut where
  ser : StepExecutionResult
  result : Option StepResult
  policy : String
  halt : Bool
  deriving Repr, DecidableEq

/-- `executeStepFull`: condition evaluation, retry-wrapped execution,
error-policy resolution. -/
def executeStepFull (env : ExecEnv) (step : WorkflowStep) (tmplCtx : TemplateContext)
    (level : Nat) : StepFullOut :=
  let ser0 : StepExecutionResult :=
    { id := step.id, tool := step.tool, status := "", error := "", attempts := 0,
      skipReason := "", level := level }
  let run : StepFullOut :=
    let out := executeStepWithRetry env step (fun _ => executeStep env step tmplCtx)
      (fun _ => false) "context canceled"
    let ser1 := { ser0 with attempts := out.attempts }
    match out.error with
    | some e =>
      let pr := resolveErrorPolicy step
      let ser2 := { ser1 with status := "failed", error := e }
      if pr.2 then ⟨ser2, none, "", true⟩
      else if pr.1 = "skip" then ⟨ser2, none, "skip", false⟩
      else ⟨ser2, some (NewStepResult e true), "continue", false⟩
    | none =>
      match out.result with
      | some r =>
        if r.isError then
          let errText := extractText (some r)
          let pr := resolveErrorPolicy step
          let ser2 := { ser1 with status := "failed", error := errText }
          if pr.2 then ⟨ser2, none, "", true⟩
          else if pr.1 = "skip" then ⟨ser2, none, "skip", false⟩
          else ⟨ser2, some (NewStepResult errText true), "continue", false⟩
        else
          ⟨{ ser1 with status := "success" },
            some (NewStepResult (extractText (some r)) false), "", false⟩
      | none =>
        ⟨{ ser1 with status := "success" },
          some (NewStepResult (extractText none) false), "", false⟩
  if step.condition ≠ "" then
    match env.evalCondition step.condition tmplCtx with
    | .error e =>
      -- condition evaluation errors always halt (same as the "fail" policy)
      ⟨{ ser0 with status := "failed", error := "condition evaluation: " ++ e },
        none, "", true⟩
    | .ok false =>
      ⟨{ ser0 with status := "skipped", skipReason := "condition evaluated to false" },
        none, "skip", false⟩
    | .ok true => run
  else run

/-! ### Dependency graph and transitive skip propagation -/

/-- `buildDependencyGraph`: step id → ids of the steps that depend on it. -/
def buildDependencyGraph (steps : List WorkflowStep) : List (String × List String) :=
  steps.foldl
    (fun g step =>
      step.dependsOn.foldl
        (fun g dep => alistSet g dep ((alistGet g dep).getD [] ++ [step.id])) g)
    []

/-- BFS worklist of `markTransitiveDependentsSkipped`; `visited` prevents
re-enqueuing.  `fuel` bounds the iterations (Go's loop terminates because a
node is processed at most once; any fuel beyond `2·|graph| + |queue|`
changes nothing). -/
def markDependentsAux (depGraph : List (String × List String)) (reason : String) :
    Nat → List String → List String → List (String × String) → List (String × String)
  | 0, _, _, skipped => skipped
  | _ + 1, [], _, skipped => skipped
  | fuel + 1, current :: queue, visited, skipped =>
    if current ∈ visited then
      markDependentsAux depGraph reason fuel queue visited skipped
    else
      markDependentsAux depGraph reason fuel
        (queue ++ (alistGet depGraph current).getD []) (current :: visited)
        (alistSet skipped current reason)

/-- Total number of graph entries plus edges, an upper bound for the BFS
work. -/
def depGraphSize (depGraph : List (String × List String)) : Nat :=
  depGraph.foldl (fun n p => n + p.2.length + 1) 0

/-- `markTransitiveDependentsSkipped`: mark every transitive dependent of
`stepID` as skipped with reason `dependency '«id»' failed`. -/
def markTransitiveDependentsSkipped (stepID : String)
    (depGraph : List (String × List String)) (skipped : List (String × String)) :
    List (String × String) :=
  let reason := "dependency '" ++ stepID ++ "' failed"
  let queue := (alistGet depGraph stepID).getD []
  markDependentsAux depGraph reason (2 * depGraphSize depGraph + queue.length + 1)
    queue [] skipped

/-! ### Input validation and output assembly -/

/-- `validateInputs`: copy the provided arguments, apply defaults, fail on a
missing required input. -/
def validateInputs (skill : AgentSkill) (arguments : List (String × AnyValue)) :
    Except String (List (String × AnyValue)) :=
  skill.inputs.foldl
    (fun acc nameInput =>
      match acc with
      | .error e => .error e
      | .ok result =>
        match alistGet result nameInput.1 with
        | some _ => .ok result
        | none =>
          match nameInput.2.default with
          | some d => .ok (alistSet result nameInput.1 d)
          | none =>
            if nameInput.2.required then
              .error ("required input \"" ++ nameInput.1 ++ "\" is missing")
            else .ok result)
    (.ok arguments)

/-- The separator `assembleOutputMerged` joins with. -/
def mergedSeparator : String := "\n\n---\n\n"

/-- Whether `skill.Output.Include` yields a non-empty include set. -/
def includeNonEmpty (skill : AgentSkill) : Bool :=
  match skill.output with
  | some o => o.Include ≠ []
  | none => false

/-- Membership in the include set (`includeSet[step.ID]`). -/
def inIncludeSet (skill : AgentSkill) (id : String) : Bool :=
  match skill.output with
  | some o => o.Include.contains id
  | none => false

/-- `assembleOutputMerged`: walk the workflow in declaration order, keep
non-skipped steps that pass the include filter and have a non-errored,
non-empty result text, join with the separator. -/
def assembleOutputMerged (skill : AgentSkill) (tmplCtx : TemplateContext)
    (skipped : List String) : Except String ToolCallResult :=
  let parts := skill.workflow.foldl
    (fun parts step =>
      if skipped.contains step.id then parts
      else if includeNonEmpty skill && !inIncludeSet skill step.id then parts
      else
        match alistGet tmplCtx.steps step.id with
        | some sr =>
          if !sr.isError && sr.result ≠ "" then parts ++ [sr.result] else parts
        | none => parts)
    []
  .ok { content := [NewTextContent (String.intercalate mergedSeparator parts)],
        isError := false }

/-- `assembleOutputLast`: the last non-skipped step with a stored result. -/
def assembleOutputLast (skill : AgentSkill) (tmplCtx : TemplateContext)
    (skipped : List String) : Except String ToolCallResult :=
  match (skill.workflow.reverse.filterMap
      (fun step =>
        if skipped.contains step.id then none else alistGet tmplCtx.steps step.id)).head? with
  | some sr =>
    .ok { content := [NewTextContent sr.result], isError := sr.isError }
  | none => .ok { content := [NewTextContent ""], isError := false }

/-- `assembleOutputCustom`: resolve the output template. -/
def assembleOutputCustom (env : ExecEnv) (tmpl : String) (tmplCtx : TemplateContext) :
    Except String ToolCallResult :=
  match env.resolveTemplate tmpl tmplCtx with
  | .error e => .error ("resolving output template: " ++ e)
  | .ok resolved => .ok { content := [NewTextContent resolved], isError := false }

/-- `assembleOutput`: dispatch on `output.format` (default `merged`). -/
def assembleOutput (env : ExecEnv) (skill : AgentSkill) (tmplCtx : TemplateContext)
    (skipped : List String) : Except String ToolCallResult :=
  let format :=
    match skill.output with
    | some o => if o.format ≠ "" then o.format else "merged"
    | none => "merged"
  if format = "merged" then assembleOutputMerged skill tmplCtx skipped
  else if format = "last" then assembleOutputLast skill tmplCtx skipped
  else if format = "custom" then
    match skill.output with
    | some o =>
      if o.template = "" then .error "output format 'custom' requires a template"
      else assembleOutputCustom env o.template tmplCtx
    | none => .error "output format 'custom' requires a template"
  else .error ("unknown output format: \"" ++ format ++ "\"")

/-- `buildResult`: failed status becomes an error result with the standard
message; otherwise the assembled output (or a fallback text) is returned. -/
def buildResult (skillName status : String) (output : Option ToolCallResult)
    (errMsg : String) : ToolCallResult :=
  if status = "failed" then
    { content := [NewTextContent ("Workflow \"" ++ skillName ++ "\" failed: " ++ errMsg)],
      isError := true }
  else
    match output with
    | some o => o
    | none =>
      { content := [NewTextContent
          ("Workflow \"" ++ skillName ++ "\" completed with status: " ++ status)],
        isError := false }

/-! ### DAG planning -/

/-- Modelled from the spec: "level 0 contains every step with no
`depends_on`; level k+1 contains every step whose dependencies all sit in
levels ≤ k"; a cycle raises a planning error (`BuildWorkflowDAG`'s source
file is not in the tree; duplicate-id and missing-dependency checks are in
the caller-visible contract below). -/
def dagLevelsAux : Nat → List WorkflowStep → List String →
    Except String (List (List WorkflowStep))
  | _, [], _ => .ok []
  | 0, _ :: _, _ => .error "dependency cycle detected"
  | fuel + 1, remaining, done =>
    let ready := remaining.filter (fun s => s.dependsOn.all (fun d => done.contains d))
    if ready = [] then .error "dependency cycle detected"
    else
      let readyIds := ready.map (·.id)
      let rest := remaining.filter (fun s => ¬readyIds.contains s.id)
      match dagLevelsAux fuel rest (done ++ readyIds) with
      | .ok lvls => .ok (ready :: lvls)
      | .error e => .error e

/-- Modelled from the spec: DAG planning — duplicate step ids, missing
dependency ids and cycles are planning errors; otherwise the topological
layering described in §4.7. -/
def BuildWorkflowDAG (steps : List WorkflowStep) :
    Except String (List (List WorkflowStep)) :=
  let ids := steps.map (·.id)
  if ¬ids.Nodup then .error "duplicate step id"
  else if steps.any (fun s => s.dependsOn.any (fun d => ¬ids.contains d)) then
    .error "missing dependency id"
  else dagLevelsAux steps.length steps []

/-! ### The level loop of `Execute` (executor.go lines 814–1014)

With a never-cancelled context the semaphore and the per-goroutine
cancellation checks are inert, and — because `stepMap` is only written in
the sequential processing phase after `wg.Wait()` — every step of a level
sees the same snapshot of prior results.  The loop below is that
deterministic semantics. -/

/-- Mutable state of the level loop.  `trace` additionally records each
executed step's full quadruple (observability only; Go computes the same
values in its `outputs` slice). -/
structure LoopState where
  stepMap : List (String × StepResult)
  skipped : List (String × String)
  sers : List StepExecutionResult
  status : String
  trace : List StepFullOut
  deriving Repr, DecidableEq

/-- Accumulator of the sequential result-processing loop: state plus the
`levelFailed` flag and the first failure message. -/
structure LevelAcc where
  st : LoopState
  levelFailed : Bool
  failErr : String
  deriving Repr, DecidableEq

/-- One iteration of the result-processing loop: record the step result,
then apply halt / skip / continue / success handling. -/
def processOut (depGraph : List (String × List String)) (acc : LevelAcc)
    (item : WorkflowStep × StepFullOut) : LevelAcc :=
  let step := item.1
  let out := item.2
  let st0 := { acc.st with sers := acc.st.sers ++ [out.ser], trace := acc.st.trace ++ [out] }
  if out.halt then
    if ¬acc.levelFailed then { st := st0, levelFailed := true, failErr := out.ser.error }
    else { acc with st := st0 }
  else if out.policy = "skip" then
    let reason :=
      if out.ser.skipReason ≠ "" then out.ser.skipReason
      else "dependency '" ++ step.id ++ "' failed"
    let skipped1 := alistSet st0.skipped step.id reason
    let skipped2 := markTransitiveDependentsSkipped step.id depGraph skipped1
    { acc with st := { st0 with skipped := skipped2 } }
  else if out.policy = "continue" then
    let m := match out.result with
      | some r => alistSet st0.stepMap step.id r
      | none => st0.stepMap
    { acc with st := { st0 with stepMap := m, status := "partial" } }
  else
    let m := match out.result with
      | some r => alistSet st0.stepMap step.id r
      | none => st0.stepMap
    { acc with st := { st0 with stepMap := m } }

/-- The first loop over a level: steps already marked skipped get a skipped
record; the rest are executable. -/
def partitionLevel (skipped : List (String × String)) (levelIdx : Nat)
    (level : List WorkflowStep) : List StepExecutionResult × List WorkflowStep :=
  level.foldl
    (fun acc step =>
      match alistGet skipped step.id with
      | some reason =>
        (acc.1 ++ [{ id := step.id, tool := step.tool, status := "skipped", error := "",
                     attempts := 0, skipReason := reason, level := levelIdx }], acc.2)
      | none => (acc.1, acc.2 ++ [step]))
    ([], [])

/-- Result of one level: either the level halted the workflow (some step
used the `fail` path) or execution continues. -/
inductive LevelOutcome where
  | halted (failErr : String) (st : LoopState)
  | continued (st : LoopState)
  deriving Repr, DecidableEq

/-- One iteration of the level loop. -/
def processLevel (env : ExecEnv) (depGraph : List (String × List String))
    (args : List (String × AnyValue)) (levelIdx : Nat) (level : List WorkflowStep)
    (st : LoopState) : LevelOutcome :=
  let part := partitionLevel st.skipped levelIdx level
  let st1 := { st with sers := st.sers ++ part.1 }
  if part.2 = [] then .continued st1
  else
    let snapshot : TemplateContext := { inputs := args, steps := st1.stepMap }
    let outputs := part.2.map (fun step => (step, executeStepFull env step snapshot levelIdx))
    let acc := outputs.foldl (processOut depGraph) ⟨st1, false, ""⟩
    if acc.levelFailed then .halted acc.failErr acc.st else .continued acc.st

/-- What `Execute` makes observable: the returned Go error (`err`), the
returned `ToolCallResult`, the status recorded by `buildResult`, the
ordered step records, and the executed-step trace. -/
structure ExecOutput where
  err : Option String
  toolResult : Option ToolCallResult
  status : Option String
  sers : List StepExecutionResult
  trace : List StepFullOut
  deriving Repr, DecidableEq

/-- The level loop plus final output assembly. -/
def runLevels (env : ExecEnv) (depGraph : List (String × List String))
    (skill : AgentSkill) (args : List (String × AnyValue)) :
    List (List WorkflowStep) → Nat → LoopState → ExecOutput
  | [], _, st =>
    let tmplCtx : TemplateContext := { inputs := args, steps := st.stepMap }
    match assembleOutput env skill tmplCtx (st.skipped.map (·.1)) with
    | .error e =>
      { err := none, toolResult := some (buildResult skill.name "failed" none e),
        status := some "failed", sers := st.sers, trace := st.trace }
    | .ok output =>
      { err := none, toolResult := some (buildResult skill.name st.status (some output) ""),
        status := some st.status, sers := st.sers, trace := st.trace }
  | level :: rest, levelIdx, st =>
    match processLevel env depGraph args levelIdx level st with
    | .halted failErr st' =>
      { err := none, toolResult := some (buildResult skill.name "failed" none failErr),
        status := some "failed", sers := st'.sers, trace := st'.trace }
    | .continued st' => runLevels env depGraph skill args rest (levelIdx + 1) st'

/-- `defaultMaxDepth` (executor.go): the default composition-depth bound. -/
def defaultMaxDepth : Nat := 10

/-- `Execute` (executor.go line 815): safety bounds, validation, DAG
planning, then the level loop.  `stack` is the call stack carried in the
execution context (`callStackFromCtx`). -/
def Execute (env : ExecEnv) (maxDepth : Nat) (stack : List String) (skill : AgentSkill)
    (arguments : List (String × AnyValue)) : ExecOutput :=
  let errOut : String → ExecOutput := fun e =>
    { err := some e, toolResult := none, status := none, sers := [], trace := [] }
  if skill.name ∈ stack then
    errOut ("circular dependency detected: " ++
      String.intercalate " -> " (stack ++ [skill.name]))
  else if maxDepth ≤ stack.length then
    errOut ("max workflow depth (" ++ toString maxDepth ++ ") exceeded: " ++
      String.intercalate " -> " (stack ++ [skill.name]))
  else if skill.workflow = [] then
    errOut ("skill \"" ++ skill.name ++ "\" has no workflow steps")
  else
    match validateInputs skill arguments with
    | .error e => errOut ("input validation: " ++ e)
    | .ok args =>
      match BuildWorkflowDAG skill.workflow with
      | .error e => errOut ("building workflow DAG: " ++ e)
      | .ok levels =>
        runLevels env (buildDependencyGraph skill.workflow) skill args levels 0
          { stepMap := [], skipped := [], sers := [], status := "completed", trace := [] }

/-! ## Pipe-style stdio client reader (pkg/mcp, stdio.go)

`stdio.go` itself is not in the source tree; the reader task is modelled
from the spec (§4.1 pipe-style clients, steps 3 and 5) and matches the
behaviour pinned by the in-tree tests `TestStdioClient_DrainPendingRequests`
and `TestStdioClient_DrainOnContextCancel`.  Completion channels appear as
the `delivered` list; the southbound byte stream as the list of whole lines
the reader consumed before it exited (for whatever reason — EOF, read
error, or cancellation). -/

/-- A JSON-RPC response as a pending caller observes it (`jsonrpc.Response`
restricted to the observed fields: the error carries its message). -/
structure RPCResponse where
  id : Option Int
  result : Option String
  errorMsg : Option String
  deriving Repr, DecidableEq

/-- The synthetic response the drain writes: a "connection lost" error. -/
def connectionLostResponse (id : Int) : RPCResponse :=
  ⟨some id, none, some "connection lost"⟩

/-- Reader-visible client state: ids with a registered pending channel, and
the completions written so far. -/
structure StdioState where
  pending : List Int
  delivered : List (Int × RPCResponse)
  deriving Repr, DecidableEq

/-- Modelled from the spec: reader step 3 — decode a line as a JSON-RPC
response; on success look up the id, remove the entry and complete the
channel; non-decodable lines and unknown ids are only logged. -/
def routeLine (decode : String → Option (Int × RPCResponse)) (st : StdioState)
    (line : String) : StdioState :=
  match decode line with
  | some idResp =>
    if idResp.1 ∈ st.pending then
      { pending := st.pending.erase idResp.1, delivered := st.delivered ++ [idResp] }
    else st
  | none => st

/-- Modelled from the spec: reader step 5 — on exit, complete every
remaining pending entry with the synthetic "connection lost" error and
empty the map. -/
def drainPendingRequests (st : StdioState) : StdioState :=
  { pending := [],
    delivered := st.delivered ++ st.pending.map (fun id => (id, connectionLostResponse id)) }

/-- Modelled from the spec: the reader task — route every line the stream
yielded before the reader exited, then drain (the drain is deferred, so it
runs for every exit cause). -/
def readResponses (decode : String → Option (Int × RPCResponse)) (lines : List String)
    (st : StdioState) : StdioState :=
  drainPendingRequests (lines.foldl (routeLine decode) st)

/-! ## SSE message POST handler (pkg/mcp, sse.go)

`sse.go` is not in the source tree either.  The spec (§4.5 step 4, §6) says
the POST answers an empty `202` and the JSON-RPC reply travels as an SSE
`message` event; the in-tree test `TestSSEServer_HandleMessage_WithAgentFiltering`
instead asserts a `200` whose body *is* the JSON-RPC reply.  Both behaviours
are written out below; `HandleMessage` follows the test (the in-tree
authority), `specHandleMessage` follows the spec's words, and the theorems
compare them. -/

/-- A JSON-RPC request (fields the handler forwards). -/
structure RPCRequest where
  id : Option Int
  method : String
  params : String
  deriving Repr, DecidableEq

/-- An SSE session: id and the agent identity captured at connect. -/
structure SSESession where
  id : String
  agentName : String
  deriving Repr, DecidableEq

/-- What one POST to the message path produces: HTTP status, POST body, and
the `message` events written to the paired SSE stream. -/
structure HTTPReply where
  status : Nat
  body : Option RPCResponse
  sseEvents : List RPCResponse
  deriving Repr, DecidableEq

/-- Modelled from the spec and src/pkg/mcp/sse_test.go (sse.go is absent):
look up the session by `sessionId`, dispatch the parsed JSON-RPC request
through the gateway façade (`dispatch`), and — as the in-tree test pins it —
answer `200` with the JSON-RPC reply as the POST body, writing nothing to
the SSE stream. -/
def HandleMessage (dispatch : SSESession → RPCRequest → RPCResponse)
    (sessions : List (String × SSESession)) (sessionId : String) (req : RPCRequest) :
    HTTPReply :=
  match alistGet sessions sessionId with
  | none => ⟨404, none, []⟩
  | some session => ⟨200, some (dispatch session req), []⟩

/-- Modelled from the spec: the handler as §4.5 step 4 words it — the POST
responds with an empty `202` and the reply is delivered as an SSE `message`
event on the paired stream. -/
def specHandleMessage (dispatch : SSESession → RPCRequest → RPCResponse)
    (sessions : List (String × SSESession)) (sessionId : String) (req : RPCRequest) :
    HTTPReply :=
  match alistGet sessions sessionId with
  | none => ⟨404, none, []⟩
  | some session => ⟨202, none, [dispatch session req]⟩

/-! ## Agent ACL and `tools/call` filtering (pkg/mcp gateway)

The ACL and the gateway's `tools/call` path are not in the source tree;
modelled from the spec (§4.3) and consistent with the in-tree test
`TestSSEServer_ToolsCallFiltering`. -/

/-- Glob matcher: `*` zero-or-more characters, `?` exactly one,
case-sensitive literals.  `fuel` bounds the recursion; `pattern.length +
text.length + 1` always suffices. -/
def globMatchAux : Nat → List Char → List Char → Bool
  | 0, _, _ => false
  | _ + 1, [], [] => true
  | _ + 1, [], _ :: _ => false
  | fuel + 1, '*' :: ps, ts =>
    globMatchAux fuel ps ts ||
      (match ts with
       | [] => false
       | _ :: ts' => globMatchAux fuel ('*' :: ps) ts')
  | fuel + 1, '?' :: ps, _ :: ts => globMatchAux fuel ps ts
  | _ + 1, '?' :: _, [] => false
  | fuel + 1, p :: ps, t :: ts => p = t && globMatchAux fuel ps ts
  | _ + 1, _ :: _, [] => false

/-- Modelled from the spec: the ACL glob matcher (§4.3, §9). -/
def matchGlob (pattern text : String) : Bool :=
  globMatchAux (pattern.data.length + text.data.length + 1) pattern.data text.data

/-- `config.ToolSelector`: a server plus tool globs. -/
structure ToolSelector where
  server : String
  tools : List String
  deriving Repr, DecidableEq

/-- Modelled from the spec: one selector allows the (unprefixed) tool iff
the server matches and the glob list is empty or some glob matches. -/
def selectorAllows (sel : ToolSelector) (server tool : String) : Bool :=
  sel.server = server && (sel.tools = [] || sel.tools.any (fun g => matchGlob g tool))

/-- Modelled from the spec: selectors are additive; an empty selector list
means "no restriction". -/
def agentAllowsTool (selectors : List ToolSelector) (server tool : String) : Bool :=
  selectors = [] || selectors.any (fun sel => selectorAllows sel server tool)

/-- Modelled from the spec: agent resolution — no identity or unregistered
agent allows everything; otherwise the agent's selector list decides. -/
def aclAllows (agents : List (String × List ToolSelector))
    (agentName server tool : String) : Bool :=
  if agentName = "" then true
  else
    match alistGet agents agentName with
    | none => true
    | some selectors => agentAllowsTool selectors server tool

/-- Split a prefixed tool name at the first `__` (like
`strings.SplitN(name, "__", 2)` restricted to a found separator). -/
def splitToolNameAux : List Char → Option (List Char × List Char)
  | '_' :: '_' :: rest => some ([], rest)
  | c :: rest =>
    match splitToolNameAux rest with
    | some st => some (c :: st.1, st.2)
    | none => none
  | [] => none

/-- The composite name `«server»__«tool»` split at the first `__`. -/
def splitToolName (s : String) : Option (String × String) :=
  (splitToolNameAux s.data).map (fun p => (String.mk p.1, String.mk p.2))

/-- Outcome of `tools/call` through the gateway: either a JSON-RPC protocol
error or a tool result. -/
structure ToolsCallReply where
  protocolError : Option String
  result : Option ToolCallResult
  deriving Repr, DecidableEq

/-- The denial payload: a non-protocol tool result with `is_error = true`
and a human-readable "access denied" text. -/
def accessDeniedResult (toolName agentName : String) : ToolCallResult :=
  { content := [NewTextContent ("access denied: tool '" ++ toolName ++
      "' is not allowed for agent '" ++ agentName ++ "'")],
    isError := true }

/-- Modelled from the spec: the gateway's `tools/call` — split the prefixed
name, consult the ACL; on denial return the access-denied *tool result*
(never a protocol error); otherwise route the call. -/
def handleToolsCall (agents : List (String × List ToolSelector))
    (callTool : String → ToolCallResult) (session : SSESession) (toolName : String) :
    ToolsCallReply :=
  match splitToolName toolName with
  | none => { protocolError := some "invalid tool name", result := none }
  | some serverTool =>
    if ¬aclAllows agents session.agentName serverTool.1 serverTool.2 then
      { protocolError := none,
        result := some (accessDeniedResult toolName session.agentName) }
    else
      { protocolError := none, result := some (callTool toolName) }

/-! ## Spec-side reference definitions

Written from the specification's words, to be compared with the embedded
code. -/

/-- The merged-output text as claim C5 words it: the result texts of all
non-skipped, non-errored steps (restricted to the include set when that set
is non-empty), in workflow order, joined with the separator.  Note: no
non-empty-text filter. -/
def specMergedText (skill : AgentSkill) (tmplCtx : TemplateContext)
    (skipped : List String) : String :=
  String.intercalate mergedSeparator
    ((skill.workflow.filter (fun step =>
        !skipped.contains step.id &&
        (!includeNonEmpty skill || inIncludeSet skill step.id) &&
        (match alistGet tmplCtx.steps step.id with
         | some sr => !sr.isError
         | none => false))).map
      (fun step =>
        match alistGet tmplCtx.steps step.id with
        | some sr => sr.result
        | none => ""))

/-- The merged-output text amended with the filter the code applies: only
steps whose stored result text is non-empty contribute. -/
def specMergedTextNonEmpty (skill : AgentSkill) (tmplCtx : TemplateContext)
    (skipped : List String) : String :=
  String.intercalate mergedSeparator
    ((skill.workflow.filter (fun step =>
        !skipped.contains step.id &&
        (!includeNonEmpty skill || inIncludeSet skill step.id) &&
        (match alistGet tmplCtx.steps step.id with
         | some sr => !sr.isError && sr.result ≠ ""
         | none => false))).map
      (fun step =>
        match alistGet tmplCtx.steps step.id with
        | some sr => sr.result
        | none => ""))

/-! ## Concrete instances used by witnesses and counterexamples -/

/-- A deterministic executor environment: tool `t-fail` yields a transport
error, `t-empty` a success with no content, `t-err` a tool-reported error,
anything else a success text `out:«name»`; condition `bad` fails to
evaluate, `false` evaluates to false, anything else to true. -/
def exEnv : ExecEnv where
  evalCondition := fun c _ =>
    if c = "bad" then .error "boom" else .ok (c ≠ "false")
  resolveArgs := fun a _ => .ok a
  callTool := fun name _ =>
    if name = "t-fail" then .error "connection refused"
    else if name = "t-empty" then .ok (some ⟨[], false⟩)
    else if name = "t-err" then .ok (some ⟨[NewTextContent "tool broke"], true⟩)
    else .ok (some ⟨[NewTextContent ("out:" ++ name)], false⟩)
  parseDuration := fun s => if s = "1s" then some 1000000000 else none
  resolveTemplate := fun t _ => .ok t

/-- A workflow step with only id, tool, dependencies and error policy set. -/
def mkStep (id tool : String) (deps : List String) (onError : String) : WorkflowStep :=
  { id := id, tool := tool, args := [], dependsOn := deps, condition := "",
    onError := onError, timeout := "", retry := none }

/-- Skill `s`: a single step `a` that fails under `on_error: skip`. -/
def exSkillSkip : AgentSkill :=
  { name := "s", description := "", inputs := [],
    workflow := [mkStep "a" "t-fail" [] "skip"], output := none }

/-- Skill `s4`: step `a` succeeds with an empty text, step `b` with `out:t-ok`. -/
def exSkillEmptyText : AgentSkill :=
  { name := "s4", description := "", inputs := [],
    workflow := [mkStep "a" "t-empty" [] "", mkStep "b" "t-ok" [] ""], output := none }

/-- Skill `s5`: step `a` has the unevaluable condition `bad` (and, to show
the halt ignores it, `on_error: skip`); step `b` is independent. -/
def exSkillCondErr : AgentSkill :=
  { name := "s5", description := "", inputs := [],
    workflow := [{ mkStep "a" "t-ok" [] "skip" with condition := "bad" },
                 mkStep "b" "t-ok" [] ""],
    output := none }

/-- The template context reached by running `exSkillEmptyText`. -/
def exCtxEmptyText : TemplateContext :=
  { inputs := [], steps := [("a", ⟨"", false⟩), ("b", ⟨"out:t-ok", false⟩)] }

/-- A step with a three-attempt retry policy and 1s backoff. -/
def exStepRetry : WorkflowStep :=
  { mkStep "r" "t-ok" [] "" with retry := some ⟨3, "1s"⟩ }

/-- A session bound to the agent of the in-tree filtering test. -/
def exSession : SSESession := ⟨"test-session-id", "filtered-agent"⟩

/-- The agent table of the in-tree filtering test: `filtered-agent` may only
use `server1`'s tool `allowed`. -/
def exAgents : List (String × List ToolSelector) :=
  [("filtered-agent", [⟨"server1", ["allowed"]⟩])]

/-- A gateway dispatcher used by the SSE witnesses: it answers every request
with a fixed result response. -/
def exDispatch : SSESession → RPCRequest → RPCResponse :=
  fun _ req => ⟨req.id, some "tools", none⟩

/-- The session table holding `exSession` under its id. -/
def exSessions : List (String × SSESession) := [(exSession.id, exSession)]

/-- A `tools/list` request with id 7. -/
def exReq : RPCRequest := ⟨some 7, "tools/list", ""⟩

/-- The status invariant of the level loop: the running status is
`completed` or `partial`, and it is `completed` exactly while no processed
output was a non-halting `continue` (i.e. a step failure under the
`continue` policy). -/
def statusInv (st : LoopState) : Prop :=
  (st.status = "completed" ∨ st.status = "partial") ∧
  (st.status = "completed" ↔
    ∀ o ∈ st.trace, ¬(o.halt = false ∧ o.policy = "continue"))

/-! # Theorems -/

/-- Claim C8 (confirmed): `Execute` enforces the composition safety bound
before running any step — a call stack already containing the skill's name
yields the circular-dependency error, a stack at or beyond the configured
maximum (default 10) yields the max-depth error, and in both cases the
result records no executed step (`sers` and `trace` empty, no tool result). -/
theorem execute_safety_bounds :
    ∀ (env : ExecEnv) (maxDepth : Nat) (stack : List String) (skill : AgentSkill)
      (arguments : List (String × AnyValue)),
      (skill.name ∈ stack →
        Execute env maxDepth stack skill arguments =
          { err := some ("circular dependency detected: " ++
              String.intercalate " -> " (stack ++ [skill.name])),
            toolResult := none, status := none, sers := [], trace := [] }) ∧
      (skill.name ∉ stack → maxDepth ≤ stack.length →
        Execute env maxDepth stack skill arguments =
          { err := some ("max workflow depth (" ++ toString maxDepth ++ ") exceeded: " ++
              String.intercalate " -> " (stack ++ [skill.name])),
            toolResult := none, status := none, sers := [], trace := [] }) ∧
      defaultMaxDepth = 10 := by
  intro env maxDepth stack skill arguments
  refine ⟨fun h => ?_, fun h1 h2 => ?_, rfl⟩
  · simp [Execute, h]
  · simp [Execute, h1, h2]

/-- Witness for C8: concrete circular and depth-exceeded runs. -/
theorem execute_safety_bounds_witness :
    ("s" ∈ ["s"] ∧
      Execute exEnv 10 ["s"] exSkillSkip [] =
        { err := some ("circular dependency detected: " ++
            String.intercalate " -> " (["s"] ++ ["s"])),
          toolResult := none, status := none, sers := [], trace := [] }) ∧
    ("s" ∉ ["x", "y"] ∧ (2 : Nat) ≤ ["x", "y"].length ∧
      Execute exEnv 2 ["x", "y"] exSkillSkip [] =
        { err := some ("max workflow depth (" ++ toString (2 : Nat) ++ ") exceeded: " ++
            String.intercalate " -> " (["x", "y"] ++ ["s"])),
          toolResult := none, status := none, sers := [], trace := [] }) :=
  ⟨⟨by decide, (execute_safety_bounds exEnv 10 ["s"] exSkillSkip []).1 (by decide)⟩,
   ⟨by decide, by decide,
    (execute_safety_bounds exEnv 2 ["x", "y"] exSkillSkip []).2.1 (by decide) (by decide)⟩⟩

/-- Claim C10 (confirmed): the PUT branch of the skill file API stores at
most the first `2^20` bytes of the request body — an oversized body is
silently truncated, the stored prefix has exactly `2^20` bytes, and the
request still succeeds with `204 No Content` (no rejection for oversize). -/
theorem file_put_truncates_oversized :
    ∀ (body : List Nat),
      (handleSkillFilePut true body true).status = 204 ∧
      (handleSkillFilePut true body true).written = some (body.take (2 ^ 20)) ∧
      (2 ^ 20 < body.length →
        ((handleSkillFilePut true body true).written.getD []).length = 2 ^ 20) := by
  intro body
  refine ⟨by simp [handleSkillFilePut], by simp [handleSkillFilePut], fun h => ?_⟩
  simp [handleSkillFilePut]
  omega

/-- Witness for C10: a body one byte over the cap is truncated to the cap
and accepted. -/
theorem file_put_truncates_oversized_witness :
    2 ^ 20 < (List.replicate (2 ^ 20 + 1) 7).length ∧
    ((handleSkillFilePut true (List.replicate (2 ^ 20 + 1) 7) true).written.getD []).length
      = 2 ^ 20 :=
  ⟨by rw [List.length_replicate]; omega,
   (file_put_truncates_oversized (List.replicate (2 ^ 20 + 1) 7)).2.2
     (by rw [List.length_replicate]; omega)⟩

/-- Claim C3 (corrected), counterexample: at a registered session the
message handler pinned by the in-tree test answers `200` with the JSON-RPC
reply as the POST body and writes nothing to the SSE stream — not the
claimed empty `202` with SSE delivery (the behaviour `specHandleMessage`
words out). -/
theorem handle_message_not_202_sse :
    (HandleMessage exDispatch exSessions "test-session-id" exReq).status = 200 ∧
    (HandleMessage exDispatch exSessions "test-session-id" exReq).body =
      some (exDispatch exSession exReq) ∧
    (HandleMessage exDispatch exSessions "test-session-id" exReq).sseEvents = [] ∧
    ¬((HandleMessage exDispatch exSessions "test-session-id" exReq).status = 202 ∧
      (HandleMessage exDispatch exSessions "test-session-id" exReq).body = none ∧
      exDispatch exSession exReq ∈
        (HandleMessage exDispatch exSessions "test-session-id" exReq).sseEvents) ∧
    HandleMessage exDispatch exSessions "test-session-id" exReq ≠
      specHandleMessage exDispatch exSessions "test-session-id" exReq := by
  decide

/-- Claim C3 (corrected), amended: for every POST carrying a valid
sessionId and a JSON-RPC request, the handler answers `200 OK` with the
gateway's JSON-RPC reply as the POST response body, and delivers nothing
over the paired SSE stream. -/
theorem handle_message_replies_in_post_body :
    ∀ (dispatch : SSESession → RPCRequest → RPCResponse)
      (sessions : List (String × SSESession)) (sessionId : String) (req : RPCRequest)
      (session : SSESession),
      alistGet sessions sessionId = some session →
      HandleMessage dispatch sessions sessionId req =
        ⟨200, some (dispatch session req), []⟩ := by
  intro dispatch sessions sessionId req session h
  simp [HandleMessage, h]

/-- Witness for the amended C3 at the in-tree test's session. -/
theorem handle_message_replies_in_post_body_witness :
    alistGet exSessions "test-session-id" = some exSession ∧
    HandleMessage exDispatch exSessions "test-session-id" exReq =
      ⟨200, some (exDispatch exSession exReq), []⟩ :=
  ⟨by decide,
   handle_message_replies_in_post_body exDispatch exSessions "test-session-id" exReq
     exSession (by decide)⟩

/-- Claim C4 (confirmed, modelled): for an agent bound to a non-empty
selector list, a `tools/call` naming a tool no selector matches yields a
JSON-RPC *success* (no protocol error) whose tool result has
`is_error = true` and an "access denied" text. -/
theorem tools_call_denial_is_tool_result :
    ∀ (agents : List (String × List ToolSelector)) (callTool : String → ToolCallResult)
      (session : SSESession) (selectors : List ToolSelector)
      (toolName server tool : String),
      session.agentName ≠ "" →
      alistGet agents session.agentName = some selectors →
      selectors ≠ [] →
      splitToolName toolName = some (server, tool) →
      (∀ sel ∈ selectors, selectorAllows sel server tool = false) →
      handleToolsCall agents callTool session toolName =
        { protocolError := none,
          result := some (accessDeniedResult toolName session.agentName) } ∧
      (accessDeniedResult toolName session.agentName).isError = true ∧
      (accessDeniedResult toolName session.agentName).content =
        [NewTextContent ("access denied: tool '" ++ toolName ++
          "' is not allowed for agent '" ++ session.agentName ++ "'")] := by
  intro agents callTool session selectors toolName server tool hname hget hne hsplit hdeny
  have hallow : aclAllows agents session.agentName server tool = false := by
    simp only [aclAllows, if_neg hname, hget]
    simp [agentAllowsTool, hne, List.any_eq_true]
    intro sel hsel
    exact hdeny sel hsel
  refine ⟨?_, rfl, rfl⟩
  simp [handleToolsCall, hsplit, hallow]

/-- Witness for C4: the in-tree test's denied call
(`filtered-agent`, `server1__denied`). -/
theorem tools_call_denial_is_tool_result_witness :
    (exSession.agentName ≠ "" ∧
      alistGet exAgents exSession.agentName = some [⟨"server1", ["allowed"]⟩] ∧
      ([⟨"server1", ["allowed"]⟩] : List ToolSelector) ≠ [] ∧
      splitToolName "server1__denied" = some ("server1", "denied") ∧
      (∀ sel ∈ ([⟨"server1", ["allowed"]⟩] : List ToolSelector),
        selectorAllows sel "server1" "denied" = false)) ∧
    handleToolsCall exAgents (fun n => ⟨[NewTextContent ("called " ++ n)], false⟩)
        exSession "server1__denied" =
      { protocolError := none,
        result := some (accessDeniedResult "server1__denied" "filtered-agent") } :=
  ⟨⟨by decide, by decide, by decide, by decide, by decide⟩,
   (tools_call_denial_is_tool_result exAgents
      (fun n => ⟨[NewTextContent ("called " ++ n)], false⟩) exSession
      [⟨"server1", ["allowed"]⟩] "server1__denied" "server1" "denied"
      (by decide) (by decide) (by decide) (by decide) (by decide)).1⟩

/-- One routed line keeps every existing completion. -/
lemma routeLine_delivered_step (decode : String → Option (Int × RPCResponse))
    (st : StdioState) (line : String) (x : Int × RPCResponse)
    (hx : x ∈ st.delivered) : x ∈ (routeLine decode st line).delivered := by
  unfold routeLine
  cases h : decode line with
  | none => exact hx
  | some idResp =>
    dsimp only
    by_cases hp : idResp.1 ∈ st.pending
    · rw [if_pos hp]
      exact List.mem_append_left _ hx
    · rw [if_neg hp]
      exact hx

/-- Routing lines never removes completions. -/
lemma routeLine_delivered_mono (decode : String → Option (Int × RPCResponse)) :
    ∀ (lines : List String) (st : StdioState) (x : Int × RPCResponse),
      x ∈ st.delivered → x ∈ (lines.foldl (routeLine decode) st).delivered := by
  intro lines
  induction lines with
  | nil => intro st x hx; exact hx
  | cons line rest ih =>
    intro st x hx
    exact ih (routeLine decode st line) x (routeLine_delivered_step decode st line x hx)

/-- One routed line keeps a pending id or completes it. -/
lemma routeLine_pending_step (decode : String → Option (Int × RPCResponse))
    (st : StdioState) (line : String) (id : Int) (hid : id ∈ st.pending) :
    id ∈ (routeLine decode st line).pending ∨
    ∃ r, (id, r) ∈ (routeLine decode st line).delivered := by
  unfold routeLine
  cases h : decode line with
  | none => exact Or.inl hid
  | some idResp =>
    dsimp only
    by_cases hp : idResp.1 ∈ st.pending
    · rw [if_pos hp]
      by_cases heq : id = idResp.1
      · exact Or.inr ⟨idResp.2, List.mem_append_right _ (by simp [heq])⟩
      · exact Or.inl ((List.mem_erase_of_ne heq).mpr hid)
    · rw [if_neg hp]
      exact Or.inl hid

/-- A pending id survives line routing or has been completed with a routed
reply. -/
lemma routeLine_pending_completed (decode : String → Option (Int × RPCResponse)) :
    ∀ (lines : List String) (st : StdioState) (id : Int),
      id ∈ st.pending →
      id ∈ (lines.foldl (routeLine decode) st).pending ∨
      ∃ r, (id, r) ∈ (lines.foldl (routeLine decode) st).delivered := by
  intro lines
  induction lines with
  | nil => intro st id hid; exact Or.inl hid
  | cons line rest ih =>
    intro st id hid
    rcases routeLine_pending_step decode st line id hid with h1 | ⟨r, hr⟩
    · exact ih (routeLine decode st line) id h1
    · exact Or.inr ⟨r, routeLine_delivered_mono decode rest _ _ hr⟩

/-- Claim C2 (confirmed, modelled): whatever lines the reader consumed and
however it exited, after `readResponses` the pending map is empty, every
entry still pending at exit has been completed with the synthetic
"connection lost" error, and hence every initially outstanding call has
received some completion. -/
theorem stdio_reader_drains_pending :
    ∀ (decode : String → Option (Int × RPCResponse)) (lines : List String)
      (st : StdioState),
      (readResponses decode lines st).pending = [] ∧
      (∀ id ∈ (lines.foldl (routeLine decode) st).pending,
        (id, connectionLostResponse id) ∈ (readResponses decode lines st).delivered) ∧
      (∀ id ∈ st.pending, ∃ r, (id, r) ∈ (readResponses decode lines st).delivered) := by
  intro decode lines st
  refine ⟨rfl, fun id hid => ?_, fun id hid => ?_⟩
  · unfold readResponses drainPendingRequests
    exact List.mem_append_right _ (List.mem_map_of_mem _ hid)
  · rcases routeLine_pending_completed decode lines st id hid with h | ⟨r, hr⟩
    · exact ⟨connectionLostResponse id,
        List.mem_append_right _ (List.mem_map_of_mem _ h)⟩
    · exact ⟨r, List.mem_append_left _ hr⟩

/-- Witness for C2: two pending calls, a stream that closes before any
reply — both are completed with "connection lost" and the map is empty. -/
theorem stdio_reader_drains_pending_witness :
    (1 : Int) ∈ ([1, 2] : List Int) ∧
    (readResponses (fun _ => none) [] ⟨[1, 2], []⟩).pending = [] ∧
    ((1 : Int), connectionLostResponse 1) ∈
      (readResponses (fun _ => none) [] ⟨[1, 2], []⟩).delivered :=
  ⟨by decide,
   (stdio_reader_drains_pending (fun _ => none) [] ⟨[1, 2], []⟩).1,
   (stdio_reader_drains_pending (fun _ => none) [] ⟨[1, 2], []⟩).2.1 1 (by decide)⟩

/-- `levelFailed` after processing one output: previous flag or a halt. -/
lemma processOut_levelFailed_eq (depGraph : List (String × List String))
    (acc : LevelAcc) (it : WorkflowStep × StepFullOut) :
    (processOut depGraph acc it).levelFailed = (acc.levelFailed || it.2.halt) := by
  unfold processOut
  by_cases hh : it.2.halt = true
  · by_cases hlf : acc.levelFailed = true
    · simp [hh, hlf]
    · simp [hh, hlf]
  · by_cases hs : it.2.policy = "skip"
    · simp [hh, hs]
    · by_cases hc : it.2.policy = "continue"
      · simp [hh, hs, hc]
      · simp [hh, hs, hc]

/-- Status after processing one output: `partial` on a non-halting
`continue`, otherwise unchanged. -/
lemma processOut_status_eq (depGraph : List (String × List String))
    (acc : LevelAcc) (it : WorkflowStep × StepFullOut) :
    (processOut depGraph acc it).st.status =
      if it.2.halt = false ∧ it.2.policy = "continue" then "partial"
      else acc.st.status := by
  unfold processOut
  by_cases hh : it.2.halt = true
  · by_cases hlf : acc.levelFailed = true
    · simp [hh, hlf]
    · simp [hh, hlf]
  · by_cases hs : it.2.policy = "skip"
    · simp [hh, hs]
    · by_cases hc : it.2.policy = "continue"
      · simp [hh, hs, hc]
      · simp [hh, hs, hc]

/-- Processing one output appends exactly it to the trace. -/
lemma processOut_trace_eq (depGraph : List (String × List String))
    (acc : LevelAcc) (it : WorkflowStep × StepFullOut) :
    (processOut depGraph acc it).st.trace = acc.st.trace ++ [it.2] := by
  unfold processOut
  by_cases hh : it.2.halt = true
  · by_cases hlf : acc.levelFailed = true
    · simp [hh, hlf]
    · simp [hh, hlf]
  · by_cases hs : it.2.policy = "skip"
    · simp [hh, hs]
    · by_cases hc : it.2.policy = "continue"
      · simp [hh, hs, hc]
      · simp [hh, hs, hc]

/-- Processing one output never clears `levelFailed`. -/
lemma processOut_keeps_failed (depGraph : List (String × List String))
    (acc : LevelAcc) (it : WorkflowStep × StepFullOut)
    (h : acc.levelFailed = true) :
    (processOut depGraph acc it).levelFailed = true := by
  rw [processOut_levelFailed_eq, h, Bool.true_or]

/-- A halting output marks the level failed. -/
lemma processOut_halt_fails (depGraph : List (String × List String))
    (acc : LevelAcc) (it : WorkflowStep × StepFullOut)
    (h : it.2.halt = true) :
    (processOut depGraph acc it).levelFailed = true := by
  rw [processOut_levelFailed_eq, h, Bool.or_true]

/-- `levelFailed` after the processing fold: set whenever it was already
set or some output halts. -/
lemma processOut_levelFailed (depGraph : List (String × List String)) :
    ∀ (outputs : List (WorkflowStep × StepFullOut)) (acc : LevelAcc),
      (acc.levelFailed = true ∨ ∃ it ∈ outputs, it.2.halt = true) →
      (outputs.foldl (processOut depGraph) acc).levelFailed = true := by
  intro outputs
  induction outputs with
  | nil =>
    intro acc h
    rcases h with h | ⟨it, hit, _⟩
    · exact h
    · cases hit
  | cons it rest ih =>
    intro acc h
    rcases h with h | ⟨it', hit', hhalt'⟩
    · exact ih _ (Or.inl (processOut_keeps_failed depGraph acc it h))
    · rcases List.mem_cons.mp hit' with rfl | hmem
      · exact ih _ (Or.inl (processOut_halt_fails depGraph acc it' hhalt'))
      · exact ih _ (Or.inr ⟨it', hmem, hhalt'⟩)

/-- An executed step whose `executeStepFull` halts makes its level halt. -/
lemma processLevel_halts_of_halting_step (env : ExecEnv)
    (depGraph : List (String × List String)) (args : List (String × AnyValue))
    (levelIdx : Nat) (level : List WorkflowStep) (st : LoopState)
    (step : WorkflowStep)
    (hstep : step ∈ (partitionLevel st.skipped levelIdx level).2)
    (hhalt : (executeStepFull env step ⟨args, st.stepMap⟩ levelIdx).halt = true) :
    ∃ failErr st', processLevel env depGraph args levelIdx level st =
      .halted failErr st' := by
  unfold processLevel
  have hne : ¬(partitionLevel st.skipped levelIdx level).2 = [] := by
    intro hempty
    rw [hempty] at hstep
    cases hstep
  rw [if_neg hne]
  have hmem :
      (step, executeStepFull env step ⟨args, st.stepMap⟩ levelIdx) ∈
        (partitionLevel st.skipped levelIdx level).2.map
          (fun s => (s, executeStepFull env s ⟨args, st.stepMap⟩ levelIdx)) :=
    List.mem_map_of_mem _ hstep
  have hfail := processOut_levelFailed depGraph
    ((partitionLevel st.skipped levelIdx level).2.map
      (fun s => (s, executeStepFull env s ⟨args, st.stepMap⟩ levelIdx)))
    ⟨{ st with sers := st.sers ++ (partitionLevel st.skipped levelIdx level).1 }, false, ""⟩
    (Or.inr ⟨_, hmem, hhalt⟩)
  exact ⟨_, _, by rw [if_pos hfail]⟩

/-- Claim C7 (confirmed): a non-empty condition that fails to evaluate
records the step as failed with the `condition evaluation:` message and
halts (the `fail`-policy effect, whatever `on_error` says); a false
condition marks the step skipped with reason `condition evaluated to false`
and does not halt; a halting step makes `processLevel` halt, and a halted
level makes `runLevels` return the failed workflow result immediately —
independent of the remaining levels, whose steps therefore never run. -/
theorem condition_error_halts_workflow :
    (∀ (env : ExecEnv) (step : WorkflowStep) (tmplCtx : TemplateContext) (lvl : Nat)
       (e : String),
      step.condition ≠ "" →
      env.evalCondition step.condition tmplCtx = .error e →
      executeStepFull env step tmplCtx lvl =
        ⟨{ id := step.id, tool := step.tool, status := "failed",
           error := "condition evaluation: " ++ e, attempts := 0, skipReason := "",
           level := lvl }, none, "", true⟩) ∧
    (∀ (env : ExecEnv) (step : WorkflowStep) (tmplCtx : TemplateContext) (lvl : Nat),
      step.condition ≠ "" →
      env.evalCondition step.condition tmplCtx = .ok false →
      executeStepFull env step tmplCtx lvl =
        ⟨{ id := step.id, tool := step.tool, status := "skipped", error := "",
           attempts := 0, skipReason := "condition evaluated to false",
           level := lvl }, none, "skip", false⟩) ∧
    (∀ (env : ExecEnv) (depGraph : List (String × List String))
       (args : List (String × AnyValue)) (levelIdx : Nat) (level : List WorkflowStep)
       (st : LoopState) (step : WorkflowStep),
      step ∈ (partitionLevel st.skipped levelIdx level).2 →
      (executeStepFull env step ⟨args, st.stepMap⟩ levelIdx).halt = true →
      ∃ failErr st', processLevel env depGraph args levelIdx level st =
        .halted failErr st') ∧
    (∀ (env : ExecEnv) (depGraph : List (String × List String)) (skill : AgentSkill)
       (args : List (String × AnyValue)) (level : List WorkflowStep)
       (rest : List (List WorkflowStep)) (levelIdx : Nat) (st : LoopState)
       (failErr : String) (st' : LoopState),
      processLevel env depGraph args levelIdx level st = .halted failErr st' →
      runLevels env depGraph skill args (level :: rest) levelIdx st =
        { err := none, toolResult := some (buildResult skill.name "failed" none failErr),
          status := some "failed", sers := st'.sers, trace := st'.trace }) ∧
    (∀ (name failErr : String),
      (buildResult name "failed" none failErr).isError = true) := by
  refine ⟨?_, ?_, ?_, ?_, ?_⟩
  · intro env step tmplCtx lvl e hcond heval
    simp [executeStepFull, hcond, heval]
  · intro env step tmplCtx lvl hcond heval
    simp [executeStepFull, hcond, heval]
  · intro env depGraph args levelIdx level st step hstep hhalt
    exact processLevel_halts_of_halting_step env depGraph args levelIdx level st step
      hstep hhalt
  · intro env depGraph skill args level rest levelIdx st failErr st' h
    simp [runLevels, h]
  · intro name failErr
    simp [buildResult]

/-- Witness for C7: the concrete skill whose step `a` carries the
unevaluable condition `bad` halts the workflow even under `on_error: skip`;
a `false` condition skips. -/
theorem condition_error_halts_workflow_witness :
    ((exSkillCondErr.workflow.head?.getD (mkStep "" "" [] "")).condition ≠ "" ∧
      exEnv.evalCondition "bad" { inputs := [], steps := [] } = .error "boom" ∧
      executeStepFull exEnv (exSkillCondErr.workflow.head?.getD (mkStep "" "" [] ""))
          { inputs := [], steps := [] } 0 =
        ⟨{ id := "a", tool := "t-ok", status := "failed",
           error := "condition evaluation: " ++ "boom", attempts := 0, skipReason := "",
           level := 0 }, none, "", true⟩) ∧
    (exEnv.evalCondition "false" { inputs := [], steps := [] } = .ok false ∧
      executeStepFull exEnv { mkStep "c" "t-ok" [] "" with condition := "false" }
          { inputs := [], steps := [] } 0 =
        ⟨{ id := "c", tool := "t-ok", status := "skipped", error := "",
           attempts := 0, skipReason := "condition evaluated to false",
           level := 0 }, none, "skip", false⟩) ∧
    (Execute exEnv 10 [] exSkillCondErr []).status = some "failed" ∧
    (Execute exEnv 10 [] exSkillCondErr []).toolResult =
      some ⟨[NewTextContent "Workflow \"s5\" failed: condition evaluation: boom"], true⟩ :=
  ⟨⟨by decide, by rfl,
    condition_error_halts_workflow.1 exEnv
      (exSkillCondErr.workflow.head?.getD (mkStep "" "" [] ""))
      { inputs := [], steps := [] } 0 "boom" (by decide) (by rfl)⟩,
   ⟨by rfl,
    (condition_error_halts_workflow.2.1) exEnv
      { mkStep "c" "t-ok" [] "" with condition := "false" }
      { inputs := [], steps := [] } 0 (by decide) (by rfl)⟩,
   by decide, by decide⟩

section RetryLemmas

variable (exec : Nat → Except String (Option ToolCallResult)) (cancelled : Nat → Bool)
variable (ctxErr sid : String) (maxA bo : Nat)

/-- Loop exit after the final attempt. -/
lemma retryAux_eq_zero (attempt : Nat) (le : Option String) (inv : Nat) (slp : List Nat) :
    retryAux exec cancelled ctxErr sid maxA bo 0 attempt le inv slp =
      { result := none, attempts := maxA,
        error := some ("step \"" ++ sid ++ "\" failed after " ++ toString maxA ++
          " attempts: " ++ le.getD "unknown error"),
        invoked := inv, sleeps := slp } := rfl

/-- A successful attempt returns at once. -/
lemma retryAux_eq_success (fuel attempt : Nat) (le : Option String) (inv : Nat)
    (slp : List Nat) (r : Option ToolCallResult)
    (h : exec attempt = .ok r) (hs : retrySuccess r = true) :
    retryAux exec cancelled ctxErr sid maxA bo (fuel + 1) attempt le inv slp =
      { result := r, attempts := attempt, error := none, invoked := inv + 1,
        sleeps := slp } := by
  unfold retryAux
  rw [h]
  simp [hs]

/-- A tool-reported error before the last attempt, context alive: sleep one
backoff and try again, carrying the extracted text as the error. -/
lemma retryAux_eq_toolerror_retry (fuel attempt : Nat) (le : Option String) (inv : Nat)
    (slp : List Nat) (r : Option ToolCallResult)
    (h : exec attempt = .ok r) (hs : retrySuccess r = false)
    (hlt : attempt < maxA) (hc : cancelled attempt = false) :
    retryAux exec cancelled ctxErr sid maxA bo (fuel + 1) attempt le inv slp =
      retryAux exec cancelled ctxErr sid maxA bo fuel (attempt + 1)
        (some ("step returned error: " ++ extractText r)) (inv + 1) (slp ++ [bo]) := by
  conv_lhs => unfold retryAux
  rw [h]
  simp [hs, hlt, hc]

/-- A tool-reported error before the last attempt, context cancelled during
the backoff: abort with the context error, no further attempt. -/
lemma retryAux_eq_toolerror_cancel (fuel attempt : Nat) (le : Option String) (inv : Nat)
    (slp : List Nat) (r : Option ToolCallResult)
    (h : exec attempt = .ok r) (hs : retrySuccess r = false)
    (hlt : attempt < maxA) (hc : cancelled attempt = true) :
    retryAux exec cancelled ctxErr sid maxA bo (fuel + 1) attempt le inv slp =
      { result := none, attempts := attempt, error := some ctxErr,
        invoked := inv + 1, sleeps := slp } := by
  unfold retryAux
  rw [h]
  simp [hs, hlt, hc]

/-- A tool-reported error on the last attempt: no sleep, fall out. -/
lemma retryAux_eq_toolerror_last (fuel attempt : Nat) (le : Option String) (inv : Nat)
    (slp : List Nat) (r : Option ToolCallResult)
    (h : exec attempt = .ok r) (hs : retrySuccess r = false)
    (hlt : ¬attempt < maxA) :
    retryAux exec cancelled ctxErr sid maxA bo (fuel + 1) attempt le inv slp =
      retryAux exec cancelled ctxErr sid maxA bo fuel (attempt + 1)
        (some ("step returned error: " ++ extractText r)) (inv + 1) slp := by
  conv_lhs => unfold retryAux
  rw [h]
  simp [hs, hlt]

/-- A transport error before the last attempt, context alive. -/
lemma retryAux_eq_err_retry (fuel attempt : Nat) (le : Option String) (inv : Nat)
    (slp : List Nat) (e : String)
    (h : exec attempt = .error e) (hlt : attempt < maxA)
    (hc : cancelled attempt = false) :
    retryAux exec cancelled ctxErr sid maxA bo (fuel + 1) attempt le inv slp =
      retryAux exec cancelled ctxErr sid maxA bo fuel (attempt + 1)
        (some e) (inv + 1) (slp ++ [bo]) := by
  conv_lhs => unfold retryAux
  rw [h]
  simp [hlt, hc]

/-- A transport error before the last attempt, context cancelled during the
backoff: abort with the context error, no further attempt. -/
lemma retryAux_eq_err_cancel (fuel attempt : Nat) (le : Option String) (inv : Nat)
    (slp : List Nat) (e : String)
    (h : exec attempt = .error e) (hlt : attempt < maxA)
    (hc : cancelled attempt = true) :
    retryAux exec cancelled ctxErr sid maxA bo (fuel + 1) attempt le inv slp =
      { result := none, attempts := attempt, error := some ctxErr,
        invoked := inv + 1, sleeps := slp } := by
  unfold retryAux
  rw [h]
  simp [hlt, hc]

/-- A transport error on the last attempt: no sleep, fall out. -/
lemma retryAux_eq_err_last (fuel attempt : Nat) (le : Option String) (inv : Nat)
    (slp : List Nat) (e : String)
    (h : exec attempt = .error e) (hlt : ¬attempt < maxA) :
    retryAux exec cancelled ctxErr sid maxA bo (fuel + 1) attempt le inv slp =
      retryAux exec cancelled ctxErr sid maxA bo fuel (attempt + 1)
        (some e) (inv + 1) slp := by
  conv_lhs => unfold retryAux
  rw [h]
  simp [hlt]

/-- Invocation count grows by at most the remaining fuel. -/
lemma retryAux_invoked_le :
    ∀ (fuel attempt : Nat) (le : Option String) (inv : Nat) (slp : List Nat),
      (retryAux exec cancelled ctxErr sid maxA bo fuel attempt le inv slp).invoked ≤
        inv + fuel := by
  intro fuel
  induction fuel with
  | zero =>
    intro attempt le inv slp
    rw [retryAux_eq_zero]
    simp
  | succ fuel ih =>
    intro attempt le inv slp
    cases h : exec attempt with
    | ok r =>
      by_cases hs : retrySuccess r = true
      · rw [retryAux_eq_success exec cancelled ctxErr sid maxA bo fuel attempt le inv slp r h hs]
        dsimp only
        omega
      · rw [Bool.not_eq_true] at hs
        by_cases hlt : attempt < maxA
        · by_cases hc : cancelled attempt = true
          · rw [retryAux_eq_toolerror_cancel exec cancelled ctxErr sid maxA bo fuel attempt
              le inv slp r h hs hlt hc]
            dsimp only
            omega
          · rw [Bool.not_eq_true] at hc
            rw [retryAux_eq_toolerror_retry exec cancelled ctxErr sid maxA bo fuel attempt
              le inv slp r h hs hlt hc]
            have := ih (attempt + 1)
              (some ("step returned error: " ++ extractText r)) (inv + 1) (slp ++ [bo])
            omega
        · rw [retryAux_eq_toolerror_last exec cancelled ctxErr sid maxA bo fuel attempt
            le inv slp r h hs hlt]
          have := ih (attempt + 1)
            (some ("step returned error: " ++ extractText r)) (inv + 1) slp
          omega
    | error e =>
      by_cases hlt : attempt < maxA
      · by_cases hc : cancelled attempt = true
        · rw [retryAux_eq_err_cancel exec cancelled ctxErr sid maxA bo fuel attempt
            le inv slp e h hlt hc]
          dsimp only
          omega
        · rw [Bool.not_eq_true] at hc
          rw [retryAux_eq_err_retry exec cancelled ctxErr sid maxA bo fuel attempt
            le inv slp e h hlt hc]
          have := ih (attempt + 1) (some e) (inv + 1) (slp ++ [bo])
          omega
      · rw [retryAux_eq_err_last exec cancelled ctxErr sid maxA bo fuel attempt
          le inv slp e h hlt]
        have := ih (attempt + 1) (some e) (inv + 1) slp
        omega

/-- Invocation count never decreases. -/
lemma retryAux_invoked_mono :
    ∀ (fuel attempt : Nat) (le : Option String) (inv : Nat) (slp : List Nat),
      inv ≤ (retryAux exec cancelled ctxErr sid maxA bo fuel attempt le inv slp).invoked := by
  intro fuel
  induction fuel with
  | zero =>
    intro attempt le inv slp
    rw [retryAux_eq_zero]
  | succ fuel ih =>
    intro attempt le inv slp
    cases h : exec attempt with
    | ok r =>
      by_cases hs : retrySuccess r = true
      · rw [retryAux_eq_success exec cancelled ctxErr sid maxA bo fuel attempt le inv slp r h hs]
        dsimp only
        omega
      · rw [Bool.not_eq_true] at hs
        by_cases hlt : attempt < maxA
        · by_cases hc : cancelled attempt = true
          · rw [retryAux_eq_toolerror_cancel exec cancelled ctxErr sid maxA bo fuel attempt
              le inv slp r h hs hlt hc]
            dsimp only
            omega
          · rw [Bool.not_eq_true] at hc
            rw [retryAux_eq_toolerror_retry exec cancelled ctxErr sid maxA bo fuel attempt
              le inv slp r h hs hlt hc]
            have := ih (attempt + 1)
              (some ("step returned error: " ++ extractText r)) (inv + 1) (slp ++ [bo])
            omega
        · rw [retryAux_eq_toolerror_last exec cancelled ctxErr sid maxA bo fuel attempt
            le inv slp r h hs hlt]
          have := ih (attempt + 1)
            (some ("step returned error: " ++ extractText r)) (inv + 1) slp
          omega
    | error e =>
      by_cases hlt : attempt < maxA
      · by_cases hc : cancelled attempt = true
        · rw [retryAux_eq_err_cancel exec cancelled ctxErr sid maxA bo fuel attempt
            le inv slp e h hlt hc]
          dsimp only
          omega
        · rw [Bool.not_eq_true] at hc
          rw [retryAux_eq_err_retry exec cancelled ctxErr sid maxA bo fuel attempt
            le inv slp e h hlt hc]
          have := ih (attempt + 1) (some e) (inv + 1) (slp ++ [bo])
          omega
      · rw [retryAux_eq_err_last exec cancelled ctxErr sid maxA bo fuel attempt
          le inv slp e h hlt]
        have := ih (attempt + 1) (some e) (inv + 1) slp
        omega

/-- With fuel left, at least one more invocation happens. -/
lemma retryAux_invoked_pos (fuel attempt : Nat) (le : Option String) (inv : Nat)
    (slp : List Nat) (hfuel : 1 ≤ fuel) :
    inv + 1 ≤ (retryAux exec cancelled ctxErr sid maxA bo fuel attempt le inv slp).invoked := by
  obtain ⟨f, rfl⟩ : ∃ f, fuel = f + 1 := ⟨fuel - 1, by omega⟩
  cases h : exec attempt with
  | ok r =>
    by_cases hs : retrySuccess r = true
    · rw [retryAux_eq_success exec cancelled ctxErr sid maxA bo f attempt le inv slp r h hs]
    · rw [Bool.not_eq_true] at hs
      by_cases hlt : attempt < maxA
      · by_cases hc : cancelled attempt = true
        · rw [retryAux_eq_toolerror_cancel exec cancelled ctxErr sid maxA bo f attempt
            le inv slp r h hs hlt hc]
        · rw [Bool.not_eq_true] at hc
          rw [retryAux_eq_toolerror_retry exec cancelled ctxErr sid maxA bo f attempt
            le inv slp r h hs hlt hc]
          exact retryAux_invoked_mono exec cancelled ctxErr sid maxA bo f (attempt + 1)
            _ (inv + 1) _
      · rw [retryAux_eq_toolerror_last exec cancelled ctxErr sid maxA bo f attempt
          le inv slp r h hs hlt]
        exact retryAux_invoked_mono exec cancelled ctxErr sid maxA bo f (attempt + 1)
          _ (inv + 1) _
  | error e =>
    by_cases hlt : attempt < maxA
    · by_cases hc : cancelled attempt = true
      · rw [retryAux_eq_err_cancel exec cancelled ctxErr sid maxA bo f attempt
          le inv slp e h hlt hc]
      · rw [Bool.not_eq_true] at hc
        rw [retryAux_eq_err_retry exec cancelled ctxErr sid maxA bo f attempt
          le inv slp e h hlt hc]
        exact retryAux_invoked_mono exec cancelled ctxErr sid maxA bo f (attempt + 1)
          _ (inv + 1) _
    · rw [retryAux_eq_err_last exec cancelled ctxErr sid maxA bo f attempt le inv slp e h hlt]
      exact retryAux_invoked_mono exec cancelled ctxErr sid maxA bo f (attempt + 1)
        _ (inv + 1) _

/-- The completed sleeps are exactly one backoff between consecutive
invocations (also through cancellation aborts and the final fall-through),
provided fuel and attempt track the loop bound as they do from the entry
point. -/
lemma retryAux_sleeps :
    ∀ (fuel attempt : Nat) (le : Option String) (inv : Nat) (slp : List Nat),
      attempt + fuel = maxA + 1 →
      (retryAux exec cancelled ctxErr sid maxA bo fuel attempt le inv slp).sleeps =
        slp ++ List.replicate
          ((retryAux exec cancelled ctxErr sid maxA bo fuel attempt le inv slp).invoked
            - inv - 1) bo := by
  intro fuel
  induction fuel with
  | zero =>
    intro attempt le inv slp hbound
    rw [retryAux_eq_zero]
    simp
  | succ fuel ih =>
    intro attempt le inv slp hbound
    cases h : exec attempt with
    | ok r =>
      by_cases hs : retrySuccess r = true
      · rw [retryAux_eq_success exec cancelled ctxErr sid maxA bo fuel attempt le inv slp r h hs]
        simp
      · rw [Bool.not_eq_true] at hs
        by_cases hlt : attempt < maxA
        · by_cases hc : cancelled attempt = true
          · rw [retryAux_eq_toolerror_cancel exec cancelled ctxErr sid maxA bo fuel attempt
              le inv slp r h hs hlt hc]
            simp
          · rw [Bool.not_eq_true] at hc
            rw [retryAux_eq_toolerror_retry exec cancelled ctxErr sid maxA bo fuel attempt
              le inv slp r h hs hlt hc]
            have hrec := ih (attempt + 1)
              (some ("step returned error: " ++ extractText r)) (inv + 1) (slp ++ [bo])
              (by omega)
            have hpos := retryAux_invoked_pos exec cancelled ctxErr sid maxA bo fuel
              (attempt + 1) (some ("step returned error: " ++ extractText r)) (inv + 1)
              (slp ++ [bo]) (by omega)
            rw [hrec]
            have h2 : (retryAux exec cancelled ctxErr sid maxA bo fuel (attempt + 1)
                  (some ("step returned error: " ++ extractText r)) (inv + 1)
                  (slp ++ [bo])).invoked - inv - 1 =
                ((retryAux exec cancelled ctxErr sid maxA bo fuel (attempt + 1)
                  (some ("step returned error: " ++ extractText r)) (inv + 1)
                  (slp ++ [bo])).invoked - (inv + 1) - 1) + 1 := by omega
            rw [h2, List.replicate_succ, List.append_assoc, List.singleton_append]
        · rw [retryAux_eq_toolerror_last exec cancelled ctxErr sid maxA bo fuel attempt
            le inv slp r h hs hlt]
          have hfuel0 : fuel = 0 := by omega
          subst hfuel0
          rw [retryAux_eq_zero]
          simp
    | error e =>
      by_cases hlt : attempt < maxA
      · by_cases hc : cancelled attempt = true
        · rw [retryAux_eq_err_cancel exec cancelled ctxErr sid maxA bo fuel attempt
            le inv slp e h hlt hc]
          simp
        · rw [Bool.not_eq_true] at hc
          rw [retryAux_eq_err_retry exec cancelled ctxErr sid maxA bo fuel attempt
            le inv slp e h hlt hc]
          have hrec := ih (attempt + 1) (some e) (inv + 1) (slp ++ [bo]) (by omega)
          have hpos := retryAux_invoked_pos exec cancelled ctxErr sid maxA bo fuel
            (attempt + 1) (some e) (inv + 1) (slp ++ [bo]) (by omega)
          rw [hrec]
          have h2 : (retryAux exec cancelled ctxErr sid maxA bo fuel (attempt + 1)
                (some e) (inv + 1) (slp ++ [bo])).invoked - inv - 1 =
              ((retryAux exec cancelled ctxErr sid maxA bo fuel (attempt + 1)
                (some e) (inv + 1) (slp ++ [bo])).invoked - (inv + 1) - 1) + 1 := by omega
          rw [h2, List.replicate_succ, List.append_assoc, List.singleton_append]
      · rw [retryAux_eq_err_last exec cancelled ctxErr sid maxA bo fuel attempt
          le inv slp e h hlt]
        have hfuel0 : fuel = 0 := by omega
        subst hfuel0
        rw [retryAux_eq_zero]
        simp

end RetryLemmas

/-- The normalised attempt bound is at least one. -/
lemma one_le_retryMaxAttempts (step : WorkflowStep) : 1 ≤ retryMaxAttempts step := by
  unfold retryMaxAttempts
  cases step.retry with
  | none => exact Nat.le_refl 1
  | some r =>
    dsimp only
    split
    · exact Nat.le_refl 1
    · omega

/-- Claim C6 (confirmed): with a retry policy the tool runs at most
`max_attempts` times — normalised to at least one even when
`max_attempts < 1` — with exactly one `backoff`-long sleep between
consecutive attempts; a tool result with `is_error = true` counts as a
failed attempt and contributes its extracted text (`step returned error:`)
to the carried error; and a context cancellation during the backoff wait
aborts the loop immediately with the cancellation error, with no further
attempt (for either failure shape). -/
theorem step_retry_semantics :
    (∀ (env : ExecEnv) (step : WorkflowStep)
       (exec : Nat → Except String (Option ToolCallResult)) (cancelled : Nat → Bool)
       (ctxErr : String),
      1 ≤ (executeStepWithRetry env step exec cancelled ctxErr).invoked ∧
      (executeStepWithRetry env step exec cancelled ctxErr).invoked ≤
        retryMaxAttempts step ∧
      1 ≤ retryMaxAttempts step ∧
      (executeStepWithRetry env step exec cancelled ctxErr).sleeps =
        List.replicate ((executeStepWithRetry env step exec cancelled ctxErr).invoked - 1)
          (retryBackoff env step)) ∧
    (∀ (exec : Nat → Except String (Option ToolCallResult)) (cancelled : Nat → Bool)
       (ctxErr sid : String) (maxA bo fuel attempt : Nat) (le : Option String)
       (inv : Nat) (slp : List Nat) (r : ToolCallResult),
      exec attempt = .ok (some r) → r.isError = true → attempt < maxA →
      cancelled attempt = false →
      retryAux exec cancelled ctxErr sid maxA bo (fuel + 1) attempt le inv slp =
        retryAux exec cancelled ctxErr sid maxA bo fuel (attempt + 1)
          (some ("step returned error: " ++ extractText (some r))) (inv + 1)
          (slp ++ [bo])) ∧
    (∀ (exec : Nat → Except String (Option ToolCallResult)) (cancelled : Nat → Bool)
       (ctxErr sid : String) (maxA bo fuel attempt : Nat) (le : Option String)
       (inv : Nat) (slp : List Nat) (r : ToolCallResult),
      exec attempt = .ok (some r) → r.isError = true → attempt < maxA →
      cancelled attempt = true →
      retryAux exec cancelled ctxErr sid maxA bo (fuel + 1) attempt le inv slp =
        { result := none, attempts := attempt, error := some ctxErr,
          invoked := inv + 1, sleeps := slp }) ∧
    (∀ (exec : Nat → Except String (Option ToolCallResult)) (cancelled : Nat → Bool)
       (ctxErr sid : String) (maxA bo fuel attempt : Nat) (le : Option String)
       (inv : Nat) (slp : List Nat) (e : String),
      exec attempt = .error e → attempt < maxA → cancelled attempt = true →
      retryAux exec cancelled ctxErr sid maxA bo (fuel + 1) attempt le inv slp =
        { result := none, attempts := attempt, error := some ctxErr,
          invoked := inv + 1, sleeps := slp }) := by
  refine ⟨?_, ?_, ?_, ?_⟩
  · intro env step exec cancelled ctxErr
    unfold executeStepWithRetry
    refine ⟨?_, ?_, one_le_retryMaxAttempts step, ?_⟩
    · exact retryAux_invoked_pos exec cancelled ctxErr step.id (retryMaxAttempts step)
        (retryBackoff env step) (retryMaxAttempts step) 1 none 0 []
        (one_le_retryMaxAttempts step)
    · have := retryAux_invoked_le exec cancelled ctxErr step.id (retryMaxAttempts step)
        (retryBackoff env step) (retryMaxAttempts step) 1 none 0 []
      omega
    · have := retryAux_sleeps exec cancelled ctxErr step.id (retryMaxAttempts step)
        (retryBackoff env step) (retryMaxAttempts step) 1 none 0 [] (by omega)
      simpa using this
  · intro exec cancelled ctxErr sid maxA bo fuel attempt le inv slp r hx hErr hlt hc
    exact retryAux_eq_toolerror_retry exec cancelled ctxErr sid maxA bo fuel attempt
      le inv slp (some r) hx (by simp [retrySuccess, hErr]) hlt hc
  · intro exec cancelled ctxErr sid maxA bo fuel attempt le inv slp r hx hErr hlt hc
    exact retryAux_eq_toolerror_cancel exec cancelled ctxErr sid maxA bo fuel attempt
      le inv slp (some r) hx (by simp [retrySuccess, hErr]) hlt hc
  · intro exec cancelled ctxErr sid maxA bo fuel attempt le inv slp e hx hlt hc
    exact retryAux_eq_err_cancel exec cancelled ctxErr sid maxA bo fuel attempt
      le inv slp e hx hlt hc

/-- Witness for C6 at concrete inputs: an always-failing three-attempt
retry, one tool-error retry step, and both cancellation aborts. -/
theorem step_retry_semantics_witness :
    ((fun (_ : Nat) => (Except.ok (some (⟨[NewTextContent "bad"], true⟩ : ToolCallResult))
        : Except String (Option ToolCallResult))) 1 =
      .ok (some ⟨[NewTextContent "bad"], true⟩) ∧
     (⟨[NewTextContent "bad"], true⟩ : ToolCallResult).isError = true ∧
     1 < 3 ∧ (fun (_ : Nat) => false) 1 = false ∧
     retryAux (fun _ => .ok (some ⟨[NewTextContent "bad"], true⟩)) (fun _ => false)
         "context canceled" "r" 3 5 2 1 none 0 [] =
       retryAux (fun _ => .ok (some ⟨[NewTextContent "bad"], true⟩)) (fun _ => false)
         "context canceled" "r" 3 5 1 2
         (some ("step returned error: " ++
           extractText (some ⟨[NewTextContent "bad"], true⟩))) 1 ([] ++ [5])) ∧
    ((fun (_ : Nat) => true) 1 = true ∧
     retryAux (fun _ => .ok (some ⟨[NewTextContent "bad"], true⟩)) (fun _ => true)
         "context canceled" "r" 3 5 2 1 none 0 [] =
       { result := none, attempts := 1, error := some "context canceled",
         invoked := 1, sleeps := [] }) ∧
    ((fun (_ : Nat) => (Except.error "e" : Except String (Option ToolCallResult))) 1 =
      .error "e" ∧
     retryAux (fun _ => .error "e") (fun _ => true) "context canceled" "r" 3 5 2 1
         none 0 [] =
       { result := none, attempts := 1, error := some "context canceled",
         invoked := 1, sleeps := [] }) ∧
    1 ≤ (executeStepWithRetry exEnv exStepRetry (fun _ => .error "e") (fun _ => false)
      "context canceled").invoked :=
  ⟨⟨rfl, rfl, by decide, rfl,
    step_retry_semantics.2.1 (fun _ => .ok (some ⟨[NewTextContent "bad"], true⟩))
      (fun _ => false) "context canceled" "r" 3 5 1 1 none 0 []
      ⟨[NewTextContent "bad"], true⟩ rfl rfl (by decide) rfl⟩,
   ⟨rfl,
    step_retry_semantics.2.2.1 (fun _ => .ok (some ⟨[NewTextContent "bad"], true⟩))
      (fun _ => true) "context canceled" "r" 3 5 1 1 none 0 []
      ⟨[NewTextContent "bad"], true⟩ rfl rfl (by decide) rfl⟩,
   ⟨rfl,
    step_retry_semantics.2.2.2 (fun _ => .error "e") (fun _ => true)
      "context canceled" "r" 3 5 1 1 none 0 [] "e" rfl (by decide) rfl⟩,
   (step_retry_semantics.1 exEnv exStepRetry (fun _ => .error "e") (fun _ => false)
      "context canceled").1⟩

/-- One merged-fold step, in conditional form: append the step's stored
result text exactly when the step passes all the filters. -/
lemma mergedStep_eq (skill : AgentSkill) (tmplCtx : TemplateContext)
    (skipped : List String) (step : WorkflowStep) (parts : List String) :
    (if skipped.contains step.id then parts
     else if includeNonEmpty skill && !inIncludeSet skill step.id then parts
     else
       match alistGet tmplCtx.steps step.id with
       | some sr =>
         if !sr.isError && sr.result ≠ "" then parts ++ [sr.result] else parts
       | none => parts) =
    (if (!skipped.contains step.id &&
         (!includeNonEmpty skill || inIncludeSet skill step.id) &&
         (match alistGet tmplCtx.steps step.id with
          | some sr => !sr.isError && sr.result ≠ ""
          | none => false)) = true
     then parts ++
       [match alistGet tmplCtx.steps step.id with
        | some sr => sr.result
        | none => ""]
     else parts) := by
  cases hskip : skipped.contains step.id with
  | true => simp [hskip]
  | false =>
    cases hin : includeNonEmpty skill with
    | true =>
      cases his : inIncludeSet skill step.id with
      | false => simp [hskip, hin, his]
      | true =>
        cases halist : alistGet tmplCtx.steps step.id with
        | none => simp [hskip, hin, his, halist]
        | some sr =>
          cases herr : sr.isError with
          | true => simp [hskip, hin, his, halist, herr]
          | false =>
            by_cases hres : sr.result = ""
            · simp [hskip, hin, his, halist, herr, hres]
            · simp [hskip, hin, his, halist, herr, hres]
    | false =>
      cases halist : alistGet tmplCtx.steps step.id with
      | none => simp [hskip, hin, halist]
      | some sr =>
        cases herr : sr.isError with
        | true => simp [hskip, hin, halist, herr]
        | false =>
          by_cases hres : sr.result = ""
          · simp [hskip, hin, halist, herr, hres]
          · simp [hskip, hin, halist, herr, hres]

/-- The merged-output accumulation equals the filtered, workflow-ordered
part list (with the code's non-empty-text filter). -/
lemma merged_fold_spec (skill : AgentSkill) (tmplCtx : TemplateContext)
    (skipped : List String) :
    ∀ (ws : List WorkflowStep) (parts : List String),
      ws.foldl
        (fun parts step =>
          if skipped.contains step.id then parts
          else if includeNonEmpty skill && !inIncludeSet skill step.id then parts
          else
            match alistGet tmplCtx.steps step.id with
            | some sr =>
              if !sr.isError && sr.result ≠ "" then parts ++ [sr.result] else parts
            | none => parts)
        parts =
      parts ++
        ((ws.filter (fun step =>
            !skipped.contains step.id &&
            (!includeNonEmpty skill || inIncludeSet skill step.id) &&
            (match alistGet tmplCtx.steps step.id with
             | some sr => !sr.isError && sr.result ≠ ""
             | none => false))).map
          (fun step =>
            match alistGet tmplCtx.steps step.id with
            | some sr => sr.result
            | none => "")) := by
  intro ws
  induction ws with
  | nil => intro parts; simp
  | cons step ws ih =>
    intro parts
    rw [List.foldl_cons, List.filter_cons]
    rw [mergedStep_eq skill tmplCtx skipped step parts]
    by_cases hp : (!skipped.contains step.id &&
        (!includeNonEmpty skill || inIncludeSet skill step.id) &&
        (match alistGet tmplCtx.steps step.id with
         | some sr => !sr.isError && sr.result ≠ ""
         | none => false)) = true
    · rw [if_pos hp, if_pos hp]
      rw [ih]
      simp [List.append_assoc]
    · rw [if_neg hp, if_neg hp]
      exact ih parts

/-- Pointwise-equal `contains` forces simultaneous emptiness. -/
lemma contains_eq_nil_iff (a b : List String)
    (h : ∀ x, a.contains x = b.contains x) : a = [] ↔ b = [] := by
  constructor
  · intro ha
    cases b with
    | nil => rfl
    | cons y ys =>
      have hy := h y
      rw [ha] at hy
      simp at hy
  · intro hb
    cases a with
    | nil => rfl
    | cons y ys =>
      have hy := h y
      rw [hb] at hy
      simp at hy

/-- The merged assembler, in closed form. -/
lemma assembleOutputMerged_eq (skill : AgentSkill) (tmplCtx : TemplateContext)
    (skipped : List String) :
    assembleOutputMerged skill tmplCtx skipped =
      .ok { content := [NewTextContent (specMergedTextNonEmpty skill tmplCtx skipped)],
            isError := false } := by
  unfold assembleOutputMerged specMergedTextNonEmpty
  rw [merged_fold_spec skill tmplCtx skipped skill.workflow []]
  rfl

/-- Claim C5 (corrected), counterexample: running the two-step skill whose
first step succeeds with an empty text, the executor's merged output is
`out:t-ok` while the claim's join (`specMergedText`) over the same
non-skipped, non-errored steps keeps the empty text and reads
`\n\n---\n\nout:t-ok` — so the claimed equality fails on empty result
texts. -/
theorem merged_output_drops_empty_text :
    (Execute exEnv 10 [] exSkillEmptyText []).toolResult =
      some ⟨[NewTextContent "out:t-ok"], false⟩ ∧
    (Execute exEnv 10 [] exSkillEmptyText []).sers.map (fun s => s.status) =
      ["success", "success"] ∧
    (Execute exEnv 10 [] exSkillEmptyText []).trace.map (fun o => o.result) =
      [some ⟨"", false⟩, some ⟨"out:t-ok", false⟩] ∧
    assembleOutputMerged exSkillEmptyText exCtxEmptyText [] =
      .ok ⟨[NewTextContent "out:t-ok"], false⟩ ∧
    specMergedText exSkillEmptyText exCtxEmptyText [] = "\n\n---\n\nout:t-ok" ∧
    ("out:t-ok" : String) ≠ "\n\n---\n\nout:t-ok" :=
  ⟨by decide, by decide, by decide, by rfl, by decide, by decide⟩

/-- Claim C5 (corrected), amended: the merged output is the separator-join,
in workflow (declaration) order, of the result texts of all non-skipped,
non-errored steps *whose result text is non-empty*, restricted to the
include set when non-empty; and the include list matters only through
membership, so workflow order is preserved whatever order the include list
uses. -/
theorem merged_output_is_ordered_join :
    (∀ (skill : AgentSkill) (tmplCtx : TemplateContext) (skipped : List String),
      assembleOutputMerged skill tmplCtx skipped =
        .ok { content := [NewTextContent (specMergedTextNonEmpty skill tmplCtx skipped)],
              isError := false }) ∧
    (∀ (skill : AgentSkill) (o : WorkflowOutput) (inc' : List String)
       (tmplCtx : TemplateContext) (skipped : List String),
      (∀ x, o.Include.contains x = inc'.contains x) →
      assembleOutputMerged { skill with output := some o } tmplCtx skipped =
        assembleOutputMerged { skill with output := some { o with Include := inc' } }
          tmplCtx skipped) := by
  constructor
  · exact assembleOutputMerged_eq
  · intro skill o inc' tmplCtx skipped h
    have hnil := contains_eq_nil_iff o.Include inc' h
    have hIN : includeNonEmpty { skill with output := some o } =
        includeNonEmpty { skill with output := some { o with Include := inc' } } := by
      unfold includeNonEmpty
      by_cases ho : o.Include = []
      · simp [ho, hnil.mp ho]
      · have hb : ¬inc' = [] := fun hb => ho (hnil.mpr hb)
        simp [ho, hb]
    have hIS : ∀ id, inIncludeSet { skill with output := some o } id =
        inIncludeSet { skill with output := some { o with Include := inc' } } id := by
      intro id
      unfold inIncludeSet
      exact h id
    rw [assembleOutputMerged_eq, assembleOutputMerged_eq]
    have hspec : specMergedTextNonEmpty { skill with output := some o } tmplCtx skipped =
        specMergedTextNonEmpty { skill with output := some { o with Include := inc' } }
          tmplCtx skipped := by
      unfold specMergedTextNonEmpty
      congr 1
      congr 1
      refine List.filter_congr ?_
      intro step _
      rw [hIN, hIS step.id]
    rw [hspec]

/-- Witness for the include-order part of C5: permuted include lists give
the same merged output. -/
theorem merged_output_is_ordered_join_witness :
    (∀ x, (["step-c", "step-a"] : List String).contains x =
      (["step-a", "step-c"] : List String).contains x) ∧
    assembleOutputMerged
        { exSkillEmptyText with
          output := some (WorkflowOutput.mk "merged" ["step-c", "step-a"] "") }
        exCtxEmptyText [] =
      assembleOutputMerged
        { exSkillEmptyText with
          output := some (WorkflowOutput.mk "merged" ["step-a", "step-c"] "") }
        exCtxEmptyText [] :=
  ⟨fun x => by by_cases h1 : x = "step-c" <;> by_cases h2 : x = "step-a" <;>
      simp [h1, h2],
   merged_output_is_ordered_join.2 exSkillEmptyText
     (WorkflowOutput.mk "merged" ["step-c", "step-a"] "") ["step-a", "step-c"]
     exCtxEmptyText []
     (fun x => by by_cases h1 : x = "step-c" <;> by_cases h2 : x = "step-a" <;>
       simp [h1, h2])⟩

/-- Processing an output preserves the status invariant. -/
lemma processOut_statusInv (depGraph : List (String × List String))
    (acc : LevelAcc) (it : WorkflowStep × StepFullOut)
    (h : statusInv acc.st) : statusInv (processOut depGraph acc it).st := by
  unfold statusInv at h ⊢
  rw [processOut_status_eq, processOut_trace_eq]
  by_cases hc : it.2.halt = false ∧ it.2.policy = "continue"
  · rw [if_pos hc]
    refine ⟨Or.inr rfl, ?_⟩
    constructor
    · intro hcontra
      exact absurd hcontra (by decide)
    · intro hall
      exact absurd ⟨hc.1, hc.2⟩ (hall it.2 (List.mem_append_right _ (by simp)))
  · rw [if_neg hc]
    refine ⟨h.1, ?_⟩
    rw [h.2]
    constructor
    · intro hall o ho
      rcases List.mem_append.mp ho with h1 | h2
      · exact hall o h1
      · rw [List.mem_singleton] at h2
        subst h2
        exact hc
    · intro hall o ho
      exact hall o (List.mem_append_left _ ho)

/-- The processing fold preserves the status invariant. -/
lemma foldl_statusInv (depGraph : List (String × List String)) :
    ∀ (outputs : List (WorkflowStep × StepFullOut)) (acc : LevelAcc),
      statusInv acc.st →
      statusInv ((outputs.foldl (processOut depGraph) acc).st) := by
  intro outputs
  induction outputs with
  | nil => intro acc h; exact h
  | cons it rest ih =>
    intro acc h
    exact ih (processOut depGraph acc it) (processOut_statusInv depGraph acc it h)

/-- A level's outcome state keeps the status invariant. -/
lemma processLevel_statusInv (env : ExecEnv) (depGraph : List (String × List String))
    (args : List (String × AnyValue)) (levelIdx : Nat) (level : List WorkflowStep)
    (st : LoopState) (h : statusInv st) :
    (match processLevel env depGraph args levelIdx level st with
     | .halted _ st' => statusInv st'
     | .continued st' => statusInv st') := by
  unfold processLevel
  have h1 : statusInv { st with sers := st.sers ++ (partitionLevel st.skipped levelIdx level).1 } := h
  by_cases hemp : (partitionLevel st.skipped levelIdx level).2 = []
  · rw [if_pos hemp]
    exact h1
  · rw [if_neg hemp]
    dsimp only
    have h2 := foldl_statusInv depGraph
      ((partitionLevel st.skipped levelIdx level).2.map
        (fun step => (step, executeStepFull env step
          ⟨args, { st with sers := st.sers ++ (partitionLevel st.skipped levelIdx level).1 }.stepMap⟩
          levelIdx)))
      ⟨{ st with sers := st.sers ++ (partitionLevel st.skipped levelIdx level).1 }, false, ""⟩
      h1
    by_cases hlf : (((partitionLevel st.skipped levelIdx level).2.map
        (fun step => (step, executeStepFull env step
          ⟨args, { st with sers := st.sers ++ (partitionLevel st.skipped levelIdx level).1 }.stepMap⟩
          levelIdx))).foldl (processOut depGraph)
        ⟨{ st with sers := st.sers ++ (partitionLevel st.skipped levelIdx level).1 }, false, ""⟩).levelFailed = true
    · rw [if_pos hlf]
      exact h2
    · rw [if_neg hlf]
      exact h2

/-- `runLevels` returns either the failed record or the final state's
status, and its trace is a state's trace with the invariant. -/
lemma runLevels_statusInv (env : ExecEnv) (depGraph : List (String × List String))
    (skill : AgentSkill) (args : List (String × AnyValue)) :
    ∀ (levels : List (List WorkflowStep)) (levelIdx : Nat) (st : LoopState),
      statusInv st →
      ∃ st', statusInv st' ∧
        (runLevels env depGraph skill args levels levelIdx st).trace = st'.trace ∧
        ((runLevels env depGraph skill args levels levelIdx st).status = some "failed" ∨
         (runLevels env depGraph skill args levels levelIdx st).status =
           some st'.status) := by
  intro levels
  induction levels with
  | nil =>
    intro levelIdx st h
    unfold runLevels
    dsimp only
    split
    · exact ⟨st, h, rfl, Or.inl rfl⟩
    · exact ⟨st, h, rfl, Or.inr rfl⟩
  | cons level rest ih =>
    intro levelIdx st h
    have hm := processLevel_statusInv env depGraph args levelIdx level st h
    unfold runLevels
    cases hp : processLevel env depGraph args levelIdx level st with
    | halted fe st2 =>
      rw [hp] at hm
      exact ⟨st2, hm, rfl, Or.inl rfl⟩
    | continued st2 =>
      rw [hp] at hm
      exact ih (levelIdx + 1) st2 hm

/-- `Execute` either errors out (no status, no trace) or ends in an
invariant-satisfying loop state. -/
lemma execute_status_cases (env : ExecEnv) (maxDepth : Nat) (stack : List String)
    (skill : AgentSkill) (args : List (String × AnyValue)) :
    ((Execute env maxDepth stack skill args).status = none ∧
      (Execute env maxDepth stack skill args).trace = []) ∨
    (∃ st', statusInv st' ∧
      (Execute env maxDepth stack skill args).trace = st'.trace ∧
      ((Execute env maxDepth stack skill args).status = some "failed" ∨
       (Execute env maxDepth stack skill args).status = some st'.status)) := by
  unfold Execute
  split
  · exact Or.inl ⟨rfl, rfl⟩
  · split
    · exact Or.inl ⟨rfl, rfl⟩
    · split
      · exact Or.inl ⟨rfl, rfl⟩
      · split
        · exact Or.inl ⟨rfl, rfl⟩
        · split
          · exact Or.inl ⟨rfl, rfl⟩
          · exact Or.inr (runLevels_statusInv env _ skill _ _ 0 _
              ⟨Or.inl rfl, by simp⟩)

/-- Claim C1 (corrected), counterexample: the one-step skill whose step
fails under `on_error: skip` finishes with status `completed`, not
`partial` — the skip policy never demotes the workflow status. -/
theorem skip_failure_keeps_completed :
    (Execute exEnv 10 [] exSkillSkip []).status = some "completed" ∧
    (Execute exEnv 10 [] exSkillSkip []).sers.map (fun s => s.status) = ["failed"] ∧
    (Execute exEnv 10 [] exSkillSkip []).trace.map (fun o => (o.policy, o.halt)) =
      [("skip", false)] ∧
    resolveErrorPolicy (mkStep "a" "t-fail" [] "skip") = ("skip", false) ∧
    (some "completed" : Option String) ≠ some "partial" ∧
    (some "completed" : Option String) ≠ some "failed" :=
  ⟨by decide, by decide, by decide, by decide, by decide, by decide⟩

/-- Claim C1 (corrected), amended: `Execute`'s reported status is one of
`completed`/`partial`/`failed` (or absent on an error return); it is
`completed` only when no executed step failed under the `continue` policy;
a `continue`-policy failure forces `partial` (or `failed`, if some step
halted); and when no step halted and none failed under `continue` — in
particular when the only failures were under `skip` — the status stays
`completed` unless output assembly itself failed. -/
theorem workflow_status_reflects_continue_failures :
    ∀ (env : ExecEnv) (maxDepth : Nat) (stack : List String) (skill : AgentSkill)
      (args : List (String × AnyValue)),
      ((Execute env maxDepth stack skill args).status = none ∨
       (Execute env maxDepth stack skill args).status = some "completed" ∨
       (Execute env maxDepth stack skill args).status = some "partial" ∨
       (Execute env maxDepth stack skill args).status = some "failed") ∧
      ((Execute env maxDepth stack skill args).status = some "completed" →
        ∀ o ∈ (Execute env maxDepth stack skill args).trace,
          ¬(o.halt = false ∧ o.policy = "continue")) ∧
      ((∃ o ∈ (Execute env maxDepth stack skill args).trace,
          o.halt = false ∧ o.policy = "continue") →
        (Execute env maxDepth stack skill args).status = some "partial" ∨
        (Execute env maxDepth stack skill args).status = some "failed") ∧
      ((∀ o ∈ (Execute env maxDepth stack skill args).trace,
          o.halt = false ∧ o.policy ≠ "continue") →
        (Execute env maxDepth stack skill args).status ≠ some "failed" →
        (Execute env maxDepth stack skill args).status = none ∨
        (Execute env maxDepth stack skill args).status = some "completed") := by
  intro env maxDepth stack skill args
  rcases execute_status_cases env maxDepth stack skill args with
    ⟨hs, ht⟩ | ⟨st', hinv, ht, hstat⟩
  · refine ⟨Or.inl hs, ?_, ?_, ?_⟩
    · intro h
      rw [hs] at h
      cases h
    · rintro ⟨o, ho, _⟩
      rw [ht] at ho
      cases ho
    · intro _ _
      exact Or.inl hs
  · have hvals := hinv.1
    refine ⟨?_, ?_, ?_, ?_⟩
    · rcases hstat with h | h
      · exact Or.inr (Or.inr (Or.inr h))
      · rcases hvals with hv | hv
        · exact Or.inr (Or.inl (hv ▸ h))
        · exact Or.inr (Or.inr (Or.inl (hv ▸ h)))
    · intro h o ho
      rcases hstat with hfail | hok
      · rw [h] at hfail
        simp at hfail
      · have hval : st'.status = "completed" :=
          Option.some.inj (hok.symm.trans h)
        rw [ht] at ho
        exact (hinv.2.mp hval) o ho
    · rintro ⟨o, ho, hcond⟩
      rcases hstat with hfail | hok
      · exact Or.inr hfail
      · have hne : st'.status ≠ "completed" := by
          intro hcomp
          rw [ht] at ho
          exact (hinv.2.mp hcomp) o ho ⟨hcond.1, hcond.2⟩
        rcases hvals with hv | hv
        · exact absurd hv hne
        · exact Or.inl (hv ▸ hok)
    · intro hall hnfail
      rcases hstat with hfail | hok
      · exact absurd hfail hnfail
      · have hcomp : st'.status = "completed" := by
          refine hinv.2.mpr ?_
          intro o ho hx
          rw [← ht] at ho
          exact (hall o ho).2 hx.2
        exact Or.inr (hcomp ▸ hok)

/-- Witness for the amended C1: the skip-failure run is reported
`completed` and indeed contains no `continue` output; its trace satisfies
the no-halt/no-continue hypothesis and the status is not `failed`. -/
theorem workflow_status_reflects_continue_failures_witness :
    ((Execute exEnv 10 [] exSkillSkip []).status = some "completed" ∧
      ∀ o ∈ (Execute exEnv 10 [] exSkillSkip []).trace,
        ¬(o.halt = false ∧ o.policy = "continue")) ∧
    ((Execute exEnv 10 [] exSkillSkip []).status = none ∨
      (Execute exEnv 10 [] exSkillSkip []).status = some "completed") :=
  ⟨⟨by decide,
    (workflow_status_reflects_continue_failures exEnv 10 [] exSkillSkip []).2.1
      (by decide)⟩,
   (workflow_status_reflects_continue_failures exEnv 10 [] exSkillSkip []).2.2.2
     (by decide) (by decide)⟩

/-- `takeName` consumes exactly a block of name characters. -/
lemma takeName_eq_append (l r : List Char)
    (hl : ∀ c ∈ l, isNameChar c = true)
    (hr : ∀ c cs, r = c :: cs → isNameChar c = false) :
    takeName (l ++ r) = (l, r) := by
  induction l with
  | nil =>
    cases r with
    | nil => rfl
    | cons c cs =>
      have := hr c cs rfl
      simp [takeName, this]
  | cons c l ih =>
    have hc : isNameChar c = true := hl c (by simp)
    have ih' := ih (fun x hx => hl x (by simp [hx]))
    simp [takeName, hc, ih']

/-- `takeOperand` consumes exactly up to the first closing brace. -/
lemma takeOperand_eq_append (d rest : List Char) (hd : ∀ c ∈ d, ¬c = '}') :
    takeOperand (d ++ '}' :: rest) = some (d, rest) := by
  induction d with
  | nil => simp [takeOperand]
  | cons c d ih =>
    have hc : ¬c = '}' := hd c (by simp)
    have ih' := ih (fun x hx => hd x (by simp [hx]))
    simp [takeOperand, hc, ih']

/-- The simple `${NAME}` match. -/
lemma tryMatch_plain (c : Char) (n rest : List Char)
    (hc : isNameStart c = true) (hn : ∀ x ∈ n, isNameChar x = true) :
    tryMatch ('$' :: '{' :: c :: n ++ '}' :: rest) =
      some (String.mk (c :: n), none, rest) := by
  have ht : takeName (n ++ '}' :: rest) = (n, '}' :: rest) :=
    takeName_eq_append n ('}' :: rest) hn
      (fun x cs hx => by
        injection hx with h1 _
        rw [← h1]
        decide)
  simp [tryMatch, hc, ht]

/-- The `${NAME:«op»OPERAND}` match for `op ∈ {+, -}`. -/
lemma tryMatch_op (c : Char) (n : List Char) (op : Char) (d rest : List Char)
    (hc : isNameStart c = true) (hn : ∀ x ∈ n, isNameChar x = true)
    (hop : op = '+' ∨ op = '-') (hd : ∀ x ∈ d, ¬x = '}') :
    tryMatch ('$' :: '{' :: c :: n ++ ':' :: op :: (d ++ '}' :: rest)) =
      some (String.mk (c :: n), some (op, String.mk d), rest) := by
  have ht : takeName (n ++ ':' :: op :: (d ++ '}' :: rest)) =
      (n, ':' :: op :: (d ++ '}' :: rest)) :=
    takeName_eq_append n (':' :: op :: (d ++ '}' :: rest)) hn
      (fun x cs hx => by
        injection hx with h1 _
        rw [← h1]
        decide)
  have hto := takeOperand_eq_append d rest hd
  have hopb : (op = '+' || op = '-') = true := by
    rcases hop with h | h <;> simp [h]
  have hk : ¬(':' : Char) = '}' := by decide
  simp [tryMatch, hc, ht, hopb, hto, hk]

/-- `takeName` never lengthens the remainder. -/
lemma takeName_snd_length : ∀ l : List Char, (takeName l).2.length ≤ l.length := by
  intro l
  induction l with
  | nil => simp [takeName]
  | cons c cs ih =>
    by_cases hc : isNameChar c = true
    · simp only [takeName, hc, if_pos]
      exact le_trans ih (by simp)
    · rw [Bool.not_eq_true] at hc
      simp [takeName, hc]

/-- `takeOperand` strictly shortens the input. -/
lemma takeOperand_length :
    ∀ (l o r : List Char), takeOperand l = some (o, r) → r.length < l.length := by
  intro l
  induction l with
  | nil => intro o r h; simp [takeOperand] at h
  | cons c cs ih =>
    intro o r h
    by_cases hc : c = '}'
    · rw [takeOperand, if_pos hc] at h
      injection h with h1
      injection h1 with _ h2
      rw [← h2]
      simp
    · rw [takeOperand, if_neg hc] at h
      cases hto : takeOperand cs with
      | none => rw [hto] at h; cases h
      | some pr =>
        rw [hto] at h
        injection h with h1
        injection h1 with _ h2
        have := ih pr.1 pr.2 (by rw [hto])
        rw [← h2]
        simp only [List.length_cons]
        omega

/-- A successful `tryMatch` strictly shortens the input. -/
lemma tryMatch_rest_length :
    ∀ (l : List Char) (name : String) (opnd : Option (Char × String))
      (rest : List Char),
      tryMatch l = some (name, opnd, rest) → rest.length < l.length := by
  intro l name opnd rest h
  cases l with
  | nil => simp [tryMatch] at h
  | cons a t =>
    cases t with
    | nil => simp [tryMatch] at h
    | cons b t2 =>
      cases t2 with
      | nil => simp [tryMatch] at h
      | cons c cs =>
        rw [tryMatch] at h
        by_cases hcond : a = '$' ∧ b = '{' ∧ isNameStart c = true
        · rw [if_pos hcond] at h
          have hlen := takeName_snd_length cs
          cases htn : takeName cs with
          | mk n r =>
            rw [htn] at h hlen
            dsimp only at h hlen
            cases r with
            | nil => cases h
            | cons k r1 =>
              dsimp only at h
              by_cases hk : k = '}'
              · rw [if_pos hk] at h
                injection h with h1
                injection h1 with _ h2
                injection h2 with _ h3
                rw [← h3]
                simp only [List.length_cons] at hlen ⊢
                omega
              · rw [if_neg hk] at h
                by_cases hk2 : k = ':'
                · rw [if_pos hk2] at h
                  cases r1 with
                  | nil => cases h
                  | cons op r2 =>
                    dsimp only at h
                    by_cases hop : (op = '+' || op = '-') = true
                    · rw [if_pos hop] at h
                      cases hto : takeOperand r2 with
                      | none => rw [hto] at h; cases h
                      | some pr =>
                        rw [hto] at h
                        injection h with h1
                        injection h1 with _ h2
                        injection h2 with _ h3
                        have hol := takeOperand_length r2 pr.1 pr.2 (by rw [hto])
                        rw [← h3]
                        simp only [List.length_cons] at hlen ⊢
                        omega
                    · rw [if_neg hop] at h
                      cases h
                · rw [if_neg hk2] at h
                  cases h
        · rw [if_neg hcond] at h
          cases h

/-- One scan step on a successful match. -/
lemma expandScan_cons_match (env : String → Option String) (fuel : Nat) (c : Char)
    (cs : List Char) (name : String) (opnd : Option (Char × String))
    (rest : List Char) (hm : tryMatch (c :: cs) = some (name, opnd, rest)) :
    expandScan env (fuel + 1) (c :: cs) =
      (expandMatch env name opnd).data ++ expandScan env fuel rest := by
  conv_lhs => unfold expandScan
  rw [hm]

/-- One scan step on a failed match. -/
lemma expandScan_cons_none (env : String → Option String) (fuel : Nat) (c : Char)
    (cs : List Char) (hm : tryMatch (c :: cs) = none) :
    expandScan env (fuel + 1) (c :: cs) = c :: expandScan env fuel cs := by
  conv_lhs => unfold expandScan
  rw [hm]

/-- Any sufficient fuel gives the same scan. -/
lemma expandScan_congr (env : String → Option String) :
    ∀ (fuel : Nat) (l : List Char), l.length ≤ fuel →
      expandScan env fuel l = expandScan env l.length l := by
  intro fuel
  induction fuel using Nat.strong_induction_on with
  | _ fuel ih =>
    intro l hl
    cases fuel with
    | zero =>
      have : l = [] := List.eq_nil_of_length_eq_zero (by omega)
      rw [this]
      rfl
    | succ f =>
      cases l with
      | nil => rfl
      | cons c cs =>
        cases hm : tryMatch (c :: cs) with
        | some x =>
          obtain ⟨name, opnd, rest⟩ := x
          have hr := tryMatch_rest_length (c :: cs) name opnd rest hm
          simp only [List.length_cons] at hr hl ⊢
          rw [expandScan_cons_match env f c cs name opnd rest hm,
            expandScan_cons_match env cs.length c cs name opnd rest hm,
            ih f (by omega) rest (by omega),
            ih cs.length (by omega) rest (by omega)]
        | none =>
          simp only [List.length_cons] at hl ⊢
          rw [expandScan_cons_none env f c cs hm,
            expandScan_cons_none env cs.length c cs hm,
            ih f (by omega) cs (by omega)]

/-- Joining two strings is appending their character lists. -/
theorem string_mk_append (s t : String) :
    String.mk (s.data ++ t.data) = s ++ t := by
  cases s
  cases t
  rfl

/-- The `:-` operand: value when set and non-empty, else default. -/
theorem expandMatch_dash (env : String → Option String) (nm d : String) :
    expandMatch env nm (some ('-', d)) =
      if (env nm).isSome ∧ (env nm).getD "" ≠ "" then (env nm).getD "" else d := by
  unfold expandMatch
  cases henv : env nm with
  | none => simp
  | some v =>
    by_cases hv : v = "" <;> simp [hv]

/-- The `:+` operand: alternative when set and non-empty, else empty. -/
theorem expandMatch_plus (env : String → Option String) (nm d : String) :
    expandMatch env nm (some ('+', d)) =
      if (env nm).isSome ∧ (env nm).getD "" ≠ "" then d else "" := by
  unfold expandMatch
  cases henv : env nm with
  | none => simp
  | some v =>
    by_cases hv : v = "" <;> simp [hv]

/-- Claim C9 (confirmed): environment expansion follows the stated POSIX
semantics — for every environment, variable name (a name-start character
followed by name characters), operand without a closing brace, and
remaining input: `${VAR}` expands to the value, or empty when undefined;
`${VAR:-default}` expands to the value when the variable is set and
non-empty, else to the default; `${VAR:+alt}` expands to `alt` when set and
non-empty, else to empty — and scanning continues after the match. -/
theorem env_expansion_posix :
    ∀ (env : String → Option String) (c : Char) (n d : List Char) (rest : String),
      isNameStart c = true →
      (∀ x ∈ n, isNameChar x = true) →
      (∀ x ∈ d, ¬x = '}') →
      (expandEnvVars env (String.mk ('$' :: '{' :: c :: n ++ '}' :: rest.data)) =
        ((env (String.mk (c :: n))).getD "") ++ expandEnvVars env rest) ∧
      (expandEnvVars env
          (String.mk ('$' :: '{' :: c :: n ++ ':' :: '-' :: (d ++ '}' :: rest.data))) =
        (if (env (String.mk (c :: n))).isSome ∧ (env (String.mk (c :: n))).getD "" ≠ ""
         then (env (String.mk (c :: n))).getD ""
         else String.mk d) ++ expandEnvVars env rest) ∧
      (expandEnvVars env
          (String.mk ('$' :: '{' :: c :: n ++ ':' :: '+' :: (d ++ '}' :: rest.data))) =
        (if (env (String.mk (c :: n))).isSome ∧ (env (String.mk (c :: n))).getD "" ≠ ""
         then String.mk d
         else "") ++ expandEnvVars env rest) := by
  intro env c n d rest hc hn hd
  refine ⟨?_, ?_, ?_⟩
  · have hm := tryMatch_plain c n rest.data hc hn
    have h1 : expandEnvVars env (String.mk ('$' :: '{' :: c :: n ++ '}' :: rest.data)) =
        String.mk (expandScan env (('{' :: c :: (n ++ '}' :: rest.data)).length + 1)
          ('$' :: '{' :: c :: (n ++ '}' :: rest.data))) := rfl
    rw [h1,
      expandScan_cons_match env (('{' :: c :: (n ++ '}' :: rest.data)).length) '$'
        ('{' :: c :: (n ++ '}' :: rest.data)) (String.mk (c :: n)) none rest.data hm,
      expandScan_congr env (('{' :: c :: (n ++ '}' :: rest.data)).length) rest.data
        (by simp only [List.length_cons, List.length_append]; omega),
      ← string_mk_append]
    rfl
  · have hm := tryMatch_op c n '-' d rest.data hc hn (Or.inr rfl) hd
    have h1 : expandEnvVars env
        (String.mk ('$' :: '{' :: c :: n ++ ':' :: '-' :: (d ++ '}' :: rest.data))) =
        String.mk (expandScan env
          (('{' :: c :: (n ++ ':' :: '-' :: (d ++ '}' :: rest.data))).length + 1)
          ('$' :: '{' :: c :: (n ++ ':' :: '-' :: (d ++ '}' :: rest.data)))) := rfl
    rw [h1,
      expandScan_cons_match env
        (('{' :: c :: (n ++ ':' :: '-' :: (d ++ '}' :: rest.data))).length) '$'
        ('{' :: c :: (n ++ ':' :: '-' :: (d ++ '}' :: rest.data)))
        (String.mk (c :: n)) (some ('-', String.mk d)) rest.data hm,
      expandScan_congr env
        (('{' :: c :: (n ++ ':' :: '-' :: (d ++ '}' :: rest.data))).length) rest.data
        (by simp only [List.length_cons, List.length_append]; omega),
      expandMatch_dash env (String.mk (c :: n)) (String.mk d),
      ← string_mk_append]
    rfl
  · have hm := tryMatch_op c n '+' d rest.data hc hn (Or.inl rfl) hd
    have h1 : expandEnvVars env
        (String.mk ('$' :: '{' :: c :: n ++ ':' :: '+' :: (d ++ '}' :: rest.data))) =
        String.mk (expandScan env
          (('{' :: c :: (n ++ ':' :: '+' :: (d ++ '}' :: rest.data))).length + 1)
          ('$' :: '{' :: c :: (n ++ ':' :: '+' :: (d ++ '}' :: rest.data)))) := rfl
    rw [h1,
      expandScan_cons_match env
        (('{' :: c :: (n ++ ':' :: '+' :: (d ++ '}' :: rest.data))).length) '$'
        ('{' :: c :: (n ++ ':' :: '+' :: (d ++ '}' :: rest.data)))
        (String.mk (c :: n)) (some ('+', String.mk d)) rest.data hm,
      expandScan_congr env
        (('{' :: c :: (n ++ ':' :: '+' :: (d ++ '}' :: rest.data))).length) rest.data
        (by simp only [List.length_cons, List.length_append]; omega),
      expandMatch_plus env (String.mk (c :: n)) (String.mk d),
      ← string_mk_append]
    rfl

/-- Witness for C9 at `HOME=/root`, `EMPTY=` (set but empty) and the unset
`X`: all three forms at concrete inputs. -/
theorem env_expansion_posix_witness :
    (isNameStart 'H' = true ∧
      (∀ x ∈ (['O', 'M', 'E'] : List Char), isNameChar x = true) ∧
      (∀ x ∈ (['d'] : List Char), ¬x = '}')) ∧
    expandEnvVars
        (fun v => if v = "HOME" then some "/root"
          else if v = "EMPTY" then some "" else none)
        (String.mk ('$' :: '{' :: 'H' :: ['O', 'M', 'E'] ++ '}' :: ("!" : String).data)) =
      (((fun v => if v = "HOME" then some "/root"
          else if v = "EMPTY" then some "" else none)
          (String.mk ('H' :: ['O', 'M', 'E']))).getD "") ++
        expandEnvVars
          (fun v => if v = "HOME" then some "/root"
            else if v = "EMPTY" then some "" else none) "!" ∧
    expandEnvVars
        (fun v => if v = "HOME" then some "/root"
          else if v = "EMPTY" then some "" else none)
        (String.mk ('$' :: '{' :: 'E' :: ['M', 'P', 'T', 'Y'] ++ ':' :: '-' ::
          (['d'] ++ '}' :: ("" : String).data))) =
      (if ((fun v => if v = "HOME" then some "/root"
            else if v = "EMPTY" then some "" else none)
            (String.mk ('E' :: ['M', 'P', 'T', 'Y']))).isSome ∧
          ((fun v => if v = "HOME" then some "/root"
            else if v = "EMPTY" then some "" else none)
            (String.mk ('E' :: ['M', 'P', 'T', 'Y']))).getD "" ≠ ""
       then ((fun v => if v = "HOME" then some "/root"
            else if v = "EMPTY" then some "" else none)
            (String.mk ('E' :: ['M', 'P', 'T', 'Y']))).getD ""
       else String.mk ['d']) ++
        expandEnvVars
          (fun v => if v = "HOME" then some "/root"
            else if v = "EMPTY" then some "" else none) "" ∧
    expandEnvVars
        (fun v => if v = "HOME" then some "/root"
          else if v = "EMPTY" then some "" else none)
        (String.mk ('$' :: '{' :: 'H' :: ['O', 'M', 'E'] ++ ':' :: '+' ::
          (['d'] ++ '}' :: ("" : String).data))) =
      (if ((fun v => if v = "HOME" then some "/root"
            else if v = "EMPTY" then some "" else none)
            (String.mk ('H' :: ['O', 'M', 'E']))).isSome ∧
          ((fun v => if v = "HOME" then some "/root"
            else if v = "EMPTY" then some "" else none)
            (String.mk ('H' :: ['O', 'M', 'E']))).getD "" ≠ ""
       then String.mk ['d']
       else "") ++
        expandEnvVars
          (fun v => if v = "HOME" then some "/root"
            else if v = "EMPTY" then some "" else none) "" :=
  ⟨⟨by decide, by decide, by decide⟩,
   (env_expansion_posix
      (fun v => if v = "HOME" then some "/root"
        else if v = "EMPTY" then some "" else none)
      'H' ['O', 'M', 'E'] ['d'] "!" (by decide) (by decide) (by decide)).1,
   (env_expansion_posix
      (fun v => if v = "HOME" then some "/root"
        else if v = "EMPTY" then some "" else none)
      'E' ['M', 'P', 'T', 'Y'] ['d'] "" (by decide) (by decide) (by decide)).2.1,
   (env_expansion_posix
      (fun v => if v = "HOME" then some "/root"
        else if v = "EMPTY" then some "" else none)
      'H' ['O', 'M', 'E'] ['d'] "" (by decide) (by decide) (by decide)).2.2⟩

end Gridctl
